import Mathlib

/-!
Verification of the higher-order reconstruction and error-estimation core of
the TMR repository (src/src/TMRGeometry.c), against its natural-language
specification.

The C code is shallowly embedded over the real numbers.  Arrays become
functions `Nat -> Real`; `for` loops that accumulate into a scalar become
`List.foldl` over `List.range`; the distributed-vector collectives
(finalize-add across processes followed by distribute) are modelled by their
contract from the specification: after finalize-add the owner of a node holds
the sum of all contributions to it, so the accumulated value at a node is the
sum, over all (element, slot) pairs that reference the node, of the value
written by that element.  External collaborators (the forest's `evalInterp`
Lagrange basis, `FElibrary::jacobian3d`, the LAPACK least-squares solver, the
element's `computeEnergies`/`addLocalizedError` callbacks and the constitutive
`failure` callback) are opaque parameters, exactly as the specification lists
them as external interfaces.
-/

/-! ## Generic lemmas about the folds produced by C loops -/

/-- A `for` loop `for i in 0..n { acc += f i }` starting at `c`. -/
theorem foldl_add_range (n : ℕ) (f : ℕ → ℝ) (c : ℝ) :
    (List.range n).foldl (fun acc i => acc + f i) c = c + ∑ i ∈ Finset.range n, f i := by
  induction n generalizing c with
  | zero => simp
  | succ n ih =>
      rw [List.range_succ, List.foldl_append, Finset.sum_range_succ, ih]
      simp [add_assoc]

section FoldStep

variable {ι : Type*} (step : ℝ → ι → ℝ) (S : ι → Set ℝ)

/-- If every loop step can only increase the accumulator, the loop result
dominates the initial value. -/
theorem foldl_step_ge (hge : ∀ a i, a ≤ step a i) :
    ∀ (l : List ι) (a : ℝ), a ≤ l.foldl step a := by
  intro l
  induction l with
  | nil => intro a; simp
  | cons x t ih => intro a; exact le_trans (hge a x) (ih _)

/-- If each step dominates a set `S i` of values and steps are monotone in the
accumulator, then the loop result dominates every value covered by a visited
step. -/
theorem foldl_step_ub (hge : ∀ a i, a ≤ step a i)
    (hub : ∀ a i, ∀ v ∈ S i, v ≤ step a i) :
    ∀ (l : List ι) (a : ℝ), ∀ i ∈ l, ∀ v ∈ S i, v ≤ l.foldl step a := by
  intro l
  induction l with
  | nil => intro a i hi; simp at hi
  | cons x t ih =>
      intro a i hi v hv
      rcases List.mem_cons.mp hi with h | h
      · subst h
        exact le_trans (hub a i v hv) (foldl_step_ge step hge t _)
      · exact ih _ i h v hv

/-- The loop result is either the initial accumulator or a value covered by
one of the visited steps. -/
theorem foldl_step_cases (hcases : ∀ a i, step a i = a ∨ step a i ∈ S i) :
    ∀ (l : List ι) (a : ℝ), l.foldl step a = a ∨ ∃ i ∈ l, l.foldl step a ∈ S i := by
  intro l
  induction l with
  | nil => intro a; left; rfl
  | cons x t ih =>
      intro a
      rcases ih (step a x) with h | ⟨i, hi, hmem'⟩
      · rcases hcases a x with h' | h'
        · left; rw [List.foldl_cons, h, h']
        · right; exact ⟨x, List.mem_cons_self x t, by rw [List.foldl_cons, h]; exact h'⟩
      · right; exact ⟨i, List.mem_cons_of_mem x hi, hmem'⟩

end FoldStep

/-- `if v > a then v else a` is `max a v`. -/
theorem ite_gt_eq_max (a v : ℝ) : (if v > a then v else a) = max a v := by
  rcases le_or_lt v a with h | h
  · simp [not_lt.mpr h, max_eq_left h]
  · simp [h, max_eq_right h.le]

namespace TMR

noncomputable section

/-! ## C1: the enrichment basis (source `evalEnrichmentFuncs2D`,
`eval2ndEnrichmentFuncs3D`, `eval3rdEnrichmentFuncs3D`)

The source evaluates, at a parametric point, the enrichment shape functions
`N` together with their parametric derivatives `Na`, `Nb` (and `Nc` in 3D).
`k1`, `k2` stand for `knots[1]`, `knots[2]`, read only by the order-4 branch.
Indices past the enrichment count return 0 (the C arrays are simply not
written there).  The branch structure mirrors the derivative-emitting
overloads: order 2, order 3, and a final `else` branch holding the order-4
formulas. -/

/-- Values `N[i]` of the 2D enrichment functions.  In the source, `ca`, `cb`
are the bubbles `(1+ξ)(1-ξ)` (order 2), `(1+ξ)ξ(1-ξ)` (order 3) and
`(1+ξ)(1-ξ)(ξ-k1)(ξ-k2)` (order 4); they are inlined here. -/
def evalEnrichmentFuncs2D_N (order : ℕ) (k1 k2 a b : ℝ) : ℕ → ℝ :=
  match order with
  | 2 => fun i =>
    match i with
    | 0 => (1+a)*(1-a)
    | 1 => b*((1+a)*(1-a))
    | 2 => (1+b)*(1-b)
    | 3 => a*((1+b)*(1-b))
    | 4 => (1+a)*(1-a)*((1+b)*(1-b))
    | _ => 0
  | 3 => fun i =>
    match i with
    | 0 => (1+a)*a*(1-a)
    | 1 => b*((1+a)*a*(1-a))
    | 2 => b*b*((1+a)*a*(1-a))
    | 3 => (1+b)*b*(1-b)
    | 4 => a*((1+b)*b*(1-b))
    | 5 => a*a*((1+b)*b*(1-b))
    | 6 => (1+a)*a*(1-a)*((1+b)*b*(1-b))
    | _ => 0
  | _ => fun i =>
    match i with
    | 0 => (1+a)*(1-a)*((a-k1)*(a-k2))
    | 1 => b*((1+a)*(1-a)*((a-k1)*(a-k2)))
    | 2 => b*b*((1+a)*(1-a)*((a-k1)*(a-k2)))
    | 3 => b*b*b*((1+a)*(1-a)*((a-k1)*(a-k2)))
    | 4 => (1+b)*(1-b)*((b-k1)*(b-k2))
    | 5 => a*((1+b)*(1-b)*((b-k1)*(b-k2)))
    | 6 => a*a*((1+b)*(1-b)*((b-k1)*(b-k2)))
    | 7 => a*a*a*((1+b)*(1-b)*((b-k1)*(b-k2)))
    | 8 => (1+a)*(1-a)*((a-k1)*(a-k2))*((1+b)*(1-b)*((b-k1)*(b-k2)))
    | _ => 0

/-- Derivatives `Na[i]` emitted by `evalEnrichmentFuncs2D`; `da` is inlined:
`-(2*a)` (order 2), `1-3*a*a` (order 3) and the product-rule expansion for
order 4. -/
def evalEnrichmentFuncs2D_Na (order : ℕ) (k1 k2 a b : ℝ) : ℕ → ℝ :=
  match order with
  | 2 => fun i =>
    match i with
    | 0 => -(2*a)
    | 1 => b*(-(2*a))
    | 2 => 0
    | 3 => (1+b)*(1-b)
    | 4 => -(2*a)*((1+b)*(1-b))
    | _ => 0
  | 3 => fun i =>
    match i with
    | 0 => 1-3*a*a
    | 1 => b*(1-3*a*a)
    | 2 => b*b*(1-3*a*a)
    | 3 => 0
    | 4 => (1+b)*b*(1-b)
    | 5 => 2*a*((1+b)*b*(1-b))
    | 6 => (1-3*a*a)*((1+b)*b*(1-b))
    | _ => 0
  | _ => fun i =>
    match i with
    | 0 => -(2*a)*((a-k1)*(a-k2)) + (1+a)*(1-a)*(2*a-k1-k2)
    | 1 => b*(-(2*a)*((a-k1)*(a-k2)) + (1+a)*(1-a)*(2*a-k1-k2))
    | 2 => b*b*(-(2*a)*((a-k1)*(a-k2)) + (1+a)*(1-a)*(2*a-k1-k2))
    | 3 => b*b*b*(-(2*a)*((a-k1)*(a-k2)) + (1+a)*(1-a)*(2*a-k1-k2))
    | 4 => 0
    | 5 => (1+b)*(1-b)*((b-k1)*(b-k2))
    | 6 => 2*a*((1+b)*(1-b)*((b-k1)*(b-k2)))
    | 7 => 3*a*a*((1+b)*(1-b)*((b-k1)*(b-k2)))
    | 8 => (-(2*a)*((a-k1)*(a-k2)) + (1+a)*(1-a)*(2*a-k1-k2))*((1+b)*(1-b)*((b-k1)*(b-k2)))
    | _ => 0

/-- Derivatives `Nb[i]` emitted by `evalEnrichmentFuncs2D`. -/
def evalEnrichmentFuncs2D_Nb (order : ℕ) (k1 k2 a b : ℝ) : ℕ → ℝ :=
  match order with
  | 2 => fun i =>
    match i with
    | 0 => 0
    | 1 => (1+a)*(1-a)
    | 2 => -(2*b)
    | 3 => a*(-(2*b))
    | 4 => (1+a)*(1-a)*(-(2*b))
    | _ => 0
  | 3 => fun i =>
    match i with
    | 0 => 0
    | 1 => (1+a)*a*(1-a)
    | 2 => 2*b*((1+a)*a*(1-a))
    | 3 => 1-3*b*b
    | 4 => a*(1-3*b*b)
    | 5 => a*a*(1-3*b*b)
    | 6 => (1+a)*a*(1-a)*(1-3*b*b)
    | _ => 0
  | _ => fun i =>
    match i with
    | 0 => 0
    | 1 => (1+a)*(1-a)*((a-k1)*(a-k2))
    | 2 => 2*b*((1+a)*(1-a)*((a-k1)*(a-k2)))
    | 3 => 3*b*b*((1+a)*(1-a)*((a-k1)*(a-k2)))
    | 4 => -(2*b)*((b-k1)*(b-k2)) + (1+b)*(1-b)*(2*b-k1-k2)
    | 5 => a*(-(2*b)*((b-k1)*(b-k2)) + (1+b)*(1-b)*(2*b-k1-k2))
    | 6 => a*a*(-(2*b)*((b-k1)*(b-k2)) + (1+b)*(1-b)*(2*b-k1-k2))
    | 7 => a*a*a*(-(2*b)*((b-k1)*(b-k2)) + (1+b)*(1-b)*(2*b-k1-k2))
    | 8 => (1+a)*(1-a)*((a-k1)*(a-k2))*(-(2*b)*((b-k1)*(b-k2)) + (1+b)*(1-b)*(2*b-k1-k2))
    | _ => 0

/-- Values `N[i]` of the second-order 3D enrichment functions
(source `eval2ndEnrichmentFuncs3D`). -/
def eval2ndEnrichmentFuncs3D_N (a b c : ℝ) : ℕ → ℝ := fun i =>
  match i with
  | 0 => (1+a)*(1-a)
  | 1 => b*((1+a)*(1-a))
  | 2 => c*((1+a)*(1-a))
  | 3 => (1+b)*(1-b)
  | 4 => a*((1+b)*(1-b))
  | 5 => c*((1+b)*(1-b))
  | 6 => (1+c)*(1-c)
  | 7 => a*((1+c)*(1-c))
  | 8 => b*((1+c)*(1-c))
  | _ => 0

/-- Derivatives `Na[i]` of the second-order 3D enrichment functions. -/
def eval2ndEnrichmentFuncs3D_Na (a b c : ℝ) : ℕ → ℝ := fun i =>
  match i with
  | 0 => -(2*a)
  | 1 => b*(-(2*a))
  | 2 => c*(-(2*a))
  | 3 => 0
  | 4 => (1+b)*(1-b)
  | 5 => 0
  | 6 => 0
  | 7 => (1+c)*(1-c)
  | 8 => 0
  | _ => 0

/-- Derivatives `Nb[i]` of the second-order 3D enrichment functions. -/
def eval2ndEnrichmentFuncs3D_Nb (a b c : ℝ) : ℕ → ℝ := fun i =>
  match i with
  | 0 => 0
  | 1 => (1+a)*(1-a)
  | 2 => 0
  | 3 => -(2*b)
  | 4 => a*(-(2*b))
  | 5 => c*(-(2*b))
  | 6 => 0
  | 7 => 0
  | 8 => (1+c)*(1-c)
  | _ => 0

/-- Derivatives `Nc[i]` of the second-order 3D enrichment functions. -/
def eval2ndEnrichmentFuncs3D_Nc (a b c : ℝ) : ℕ → ℝ := fun i =>
  match i with
  | 0 => 0
  | 1 => 0
  | 2 => (1+a)*(1-a)
  | 3 => 0
  | 4 => 0
  | 5 => (1+b)*(1-b)
  | 6 => -(2*c)
  | 7 => a*(-(2*c))
  | 8 => b*(-(2*c))
  | _ => 0

/-- Values `N[i]` of the third-order 3D enrichment functions
(source `eval3rdEnrichmentFuncs3D`). -/
def eval3rdEnrichmentFuncs3D_N (a b c : ℝ) : ℕ → ℝ := fun i =>
  match i with
  | 0 => (1+a)*a*(1-a)
  | 1 => b*((1+a)*a*(1-a))
  | 2 => b*b*((1+a)*a*(1-a))
  | 3 => c*((1+a)*a*(1-a))
  | 4 => c*c*((1+a)*a*(1-a))
  | 5 => (1+b)*b*(1-b)
  | 6 => a*((1+b)*b*(1-b))
  | 7 => a*a*((1+b)*b*(1-b))
  | 8 => c*((1+b)*b*(1-b))
  | 9 => c*c*((1+b)*b*(1-b))
  | 10 => (1+c)*c*(1-c)
  | 11 => a*((1+c)*c*(1-c))
  | 12 => a*a*((1+c)*c*(1-c))
  | 13 => b*((1+c)*c*(1-c))
  | 14 => b*b*((1+c)*c*(1-c))
  | _ => 0

/-- Derivatives `Na[i]` of the third-order 3D enrichment functions. -/
def eval3rdEnrichmentFuncs3D_Na (a b c : ℝ) : ℕ → ℝ := fun i =>
  match i with
  | 0 => 1-3*a*a
  | 1 => b*(1-3*a*a)
  | 2 => b*b*(1-3*a*a)
  | 3 => c*(1-3*a*a)
  | 4 => c*c*(1-3*a*a)
  | 5 => 0
  | 6 => (1+b)*b*(1-b)
  | 7 => 2*a*((1+b)*b*(1-b))
  | 8 => 0
  | 9 => 0
  | 10 => 0
  | 11 => (1+c)*c*(1-c)
  | 12 => 2*a*((1+c)*c*(1-c))
  | 13 => 0
  | 14 => 0
  | _ => 0

/-- Derivatives `Nb[i]` of the third-order 3D enrichment functions. -/
def eval3rdEnrichmentFuncs3D_Nb (a b c : ℝ) : ℕ → ℝ := fun i =>
  match i with
  | 0 => 0
  | 1 => (1+a)*a*(1-a)
  | 2 => 2*b*((1+a)*a*(1-a))
  | 3 => 0
  | 4 => 0
  | 5 => 1-3*b*b
  | 6 => a*(1-3*b*b)
  | 7 => a*a*(1-3*b*b)
  | 8 => c*(1-3*b*b)
  | 9 => c*c*(1-3*b*b)
  | 10 => 0
  | 11 => 0
  | 12 => 0
  | 13 => (1+c)*c*(1-c)
  | 14 => 2*b*((1+c)*c*(1-c))
  | _ => 0

/-- Derivatives `Nc[i]` of the third-order 3D enrichment functions. -/
def eval3rdEnrichmentFuncs3D_Nc (a b c : ℝ) : ℕ → ℝ := fun i =>
  match i with
  | 0 => 0
  | 1 => 0
  | 2 => 0
  | 3 => (1+a)*a*(1-a)
  | 4 => 2*c*((1+a)*a*(1-a))
  | 5 => 0
  | 6 => 0
  | 7 => 0
  | 8 => (1+b)*b*(1-b)
  | 9 => 2*c*((1+b)*b*(1-b))
  | 10 => 1-3*c*c
  | 11 => a*(1-3*c*c)
  | 12 => a*a*(1-3*c*c)
  | 13 => b*(1-3*c*c)
  | 14 => b*b*(1-3*c*c)
  | _ => 0

/-! ### Analytic derivatives of the enrichment basis (claim C9)

Helper facts: derivatives of the three bubble factors and of the identity. -/

theorem hasDerivAt_var (x : ℝ) : HasDerivAt (fun t : ℝ => t) 1 x := hasDerivAt_id x

/-- The order-2 bubble `(1+ξ)(1-ξ)` has derivative `-(2ξ)`. -/
theorem hasDerivAt_bub2 (x : ℝ) : HasDerivAt (fun t : ℝ => (1+t)*(1-t)) (-(2*x)) x := by
  have h := ((hasDerivAt_var x).const_add 1).mul ((hasDerivAt_var x).const_sub 1)
  exact h.congr_deriv (by ring)

/-- The order-3 bubble `(1+ξ)ξ(1-ξ)` has derivative `1-3ξ²`. -/
theorem hasDerivAt_bub3 (x : ℝ) : HasDerivAt (fun t : ℝ => (1+t)*t*(1-t)) (1-3*x*x) x := by
  have h := (((hasDerivAt_var x).const_add 1).mul (hasDerivAt_var x)).mul
    ((hasDerivAt_var x).const_sub 1)
  exact h.congr_deriv (by ring)

/-- The order-4 bubble `(1+ξ)(1-ξ)(ξ-k1)(ξ-k2)` and its product-rule
derivative, exactly as spelled in the source. -/
theorem hasDerivAt_bub4 (k1 k2 x : ℝ) :
    HasDerivAt (fun t : ℝ => (1+t)*(1-t)*((t-k1)*(t-k2)))
      (-(2*x)*((x-k1)*(x-k2)) + (1+x)*(1-x)*(2*x-k1-k2)) x := by
  have h := (((hasDerivAt_var x).const_add 1).mul ((hasDerivAt_var x).const_sub 1)).mul
    (((hasDerivAt_var x).sub_const k1).mul ((hasDerivAt_var x).sub_const k2))
  exact h.congr_deriv (by ring)

/-- 2D order 2: `Na` is the exact ξ-derivative of `N`. -/
theorem e2D2_a (k1 k2 b : ℝ) (i : ℕ) (a : ℝ) :
    HasDerivAt (fun x => evalEnrichmentFuncs2D_N 2 k1 k2 x b i)
      (evalEnrichmentFuncs2D_Na 2 k1 k2 a b i) a := by
  rcases i with _|_|_|_|_|i <;> simp only [evalEnrichmentFuncs2D_N, evalEnrichmentFuncs2D_Na]
  · exact hasDerivAt_bub2 a
  · exact (hasDerivAt_bub2 a).const_mul b
  · exact hasDerivAt_const a _
  · exact ((hasDerivAt_var a).mul_const _).congr_deriv (one_mul _)
  · exact (hasDerivAt_bub2 a).mul_const _
  · exact hasDerivAt_const a _

/-- 2D order 2: `Nb` is the exact η-derivative of `N`. -/
theorem e2D2_b (k1 k2 a : ℝ) (i : ℕ) (b : ℝ) :
    HasDerivAt (fun y => evalEnrichmentFuncs2D_N 2 k1 k2 a y i)
      (evalEnrichmentFuncs2D_Nb 2 k1 k2 a b i) b := by
  rcases i with _|_|_|_|_|i <;> simp only [evalEnrichmentFuncs2D_N, evalEnrichmentFuncs2D_Nb]
  · exact hasDerivAt_const b _
  · exact ((hasDerivAt_var b).mul_const _).congr_deriv (one_mul _)
  · exact hasDerivAt_bub2 b
  · exact (hasDerivAt_bub2 b).const_mul a
  · exact (hasDerivAt_bub2 b).const_mul _
  · exact hasDerivAt_const b _

/-- 2D order 3: `Na` is the exact ξ-derivative of `N`. -/
theorem e2D3_a (k1 k2 b : ℝ) (i : ℕ) (a : ℝ) :
    HasDerivAt (fun x => evalEnrichmentFuncs2D_N 3 k1 k2 x b i)
      (evalEnrichmentFuncs2D_Na 3 k1 k2 a b i) a := by
  rcases i with _|_|_|_|_|_|_|i <;>
    simp only [evalEnrichmentFuncs2D_N, evalEnrichmentFuncs2D_Na]
  · exact hasDerivAt_bub3 a
  · exact (hasDerivAt_bub3 a).const_mul b
  · exact (hasDerivAt_bub3 a).const_mul _
  · exact hasDerivAt_const a _
  · exact ((hasDerivAt_var a).mul_const _).congr_deriv (one_mul _)
  · exact (((hasDerivAt_var a).mul (hasDerivAt_var a)).mul_const _).congr_deriv (by ring)
  · exact (hasDerivAt_bub3 a).mul_const _
  · exact hasDerivAt_const a _

/-- 2D order 3: `Nb` is the exact η-derivative of `N`. -/
theorem e2D3_b (k1 k2 a : ℝ) (i : ℕ) (b : ℝ) :
    HasDerivAt (fun y => evalEnrichmentFuncs2D_N 3 k1 k2 a y i)
      (evalEnrichmentFuncs2D_Nb 3 k1 k2 a b i) b := by
  rcases i with _|_|_|_|_|_|_|i <;>
    simp only [evalEnrichmentFuncs2D_N, evalEnrichmentFuncs2D_Nb]
  · exact hasDerivAt_const b _
  · exact ((hasDerivAt_var b).mul_const _).congr_deriv (one_mul _)
  · exact (((hasDerivAt_var b).mul (hasDerivAt_var b)).mul_const _).congr_deriv (by ring)
  · exact hasDerivAt_bub3 b
  · exact (hasDerivAt_bub3 b).const_mul a
  · exact (hasDerivAt_bub3 b).const_mul _
  · exact (hasDerivAt_bub3 b).const_mul _
  · exact hasDerivAt_const b _

/-- 2D order 4 (the source's final `else` branch): `Na` is the exact
ξ-derivative of `N`. -/
theorem e2D4_a (k1 k2 b : ℝ) (i : ℕ) (a : ℝ) :
    HasDerivAt (fun x => evalEnrichmentFuncs2D_N 4 k1 k2 x b i)
      (evalEnrichmentFuncs2D_Na 4 k1 k2 a b i) a := by
  rcases i with _|_|_|_|_|_|_|_|_|i <;>
    simp only [evalEnrichmentFuncs2D_N, evalEnrichmentFuncs2D_Na]
  · exact hasDerivAt_bub4 k1 k2 a
  · exact (hasDerivAt_bub4 k1 k2 a).const_mul b
  · exact (hasDerivAt_bub4 k1 k2 a).const_mul _
  · exact (hasDerivAt_bub4 k1 k2 a).const_mul _
  · exact hasDerivAt_const a _
  · exact ((hasDerivAt_var a).mul_const _).congr_deriv (one_mul _)
  · exact (((hasDerivAt_var a).mul (hasDerivAt_var a)).mul_const _).congr_deriv (by ring)
  · exact ((((hasDerivAt_var a).mul (hasDerivAt_var a)).mul
      (hasDerivAt_var a)).mul_const _).congr_deriv (by ring)
  · exact (hasDerivAt_bub4 k1 k2 a).mul_const _
  · exact hasDerivAt_const a _

/-- 2D order 4: `Nb` is the exact η-derivative of `N`. -/
theorem e2D4_b (k1 k2 a : ℝ) (i : ℕ) (b : ℝ) :
    HasDerivAt (fun y => evalEnrichmentFuncs2D_N 4 k1 k2 a y i)
      (evalEnrichmentFuncs2D_Nb 4 k1 k2 a b i) b := by
  rcases i with _|_|_|_|_|_|_|_|_|i <;>
    simp only [evalEnrichmentFuncs2D_N, evalEnrichmentFuncs2D_Nb]
  · exact hasDerivAt_const b _
  · exact ((hasDerivAt_var b).mul_const _).congr_deriv (one_mul _)
  · exact (((hasDerivAt_var b).mul (hasDerivAt_var b)).mul_const _).congr_deriv (by ring)
  · exact ((((hasDerivAt_var b).mul (hasDerivAt_var b)).mul
      (hasDerivAt_var b)).mul_const _).congr_deriv (by ring)
  · exact hasDerivAt_bub4 k1 k2 b
  · exact (hasDerivAt_bub4 k1 k2 b).const_mul a
  · exact (hasDerivAt_bub4 k1 k2 b).const_mul _
  · exact (hasDerivAt_bub4 k1 k2 b).const_mul _
  · exact (hasDerivAt_bub4 k1 k2 b).const_mul _
  · exact hasDerivAt_const b _

/-- 3D order 2: `Na` is the exact ξ-derivative of `N`. -/
theorem e3D2_a (b c : ℝ) (i : ℕ) (a : ℝ) :
    HasDerivAt (fun x => eval2ndEnrichmentFuncs3D_N x b c i)
      (eval2ndEnrichmentFuncs3D_Na a b c i) a := by
  rcases i with _|_|_|_|_|_|_|_|_|i <;>
    simp only [eval2ndEnrichmentFuncs3D_N, eval2ndEnrichmentFuncs3D_Na]
  · exact hasDerivAt_bub2 a
  · exact (hasDerivAt_bub2 a).const_mul b
  · exact (hasDerivAt_bub2 a).const_mul c
  · exact hasDerivAt_const a _
  · exact ((hasDerivAt_var a).mul_const _).congr_deriv (one_mul _)
  · exact hasDerivAt_const a _
  · exact hasDerivAt_const a _
  · exact ((hasDerivAt_var a).mul_const _).congr_deriv (one_mul _)
  · exact hasDerivAt_const a _
  · exact hasDerivAt_const a _

/-- 3D order 2: `Nb` is the exact η-derivative of `N`. -/
theorem e3D2_b (a c : ℝ) (i : ℕ) (b : ℝ) :
    HasDerivAt (fun y => eval2ndEnrichmentFuncs3D_N a y c i)
      (eval2ndEnrichmentFuncs3D_Nb a b c i) b := by
  rcases i with _|_|_|_|_|_|_|_|_|i <;>
    simp only [eval2ndEnrichmentFuncs3D_N, eval2ndEnrichmentFuncs3D_Nb]
  · exact hasDerivAt_const b _
  · exact ((hasDerivAt_var b).mul_const _).congr_deriv (one_mul _)
  · exact hasDerivAt_const b _
  · exact hasDerivAt_bub2 b
  · exact (hasDerivAt_bub2 b).const_mul a
  · exact (hasDerivAt_bub2 b).const_mul c
  · exact hasDerivAt_const b _
  · exact hasDerivAt_const b _
  · exact ((hasDerivAt_var b).mul_const _).congr_deriv (one_mul _)
  · exact hasDerivAt_const b _

/-- 3D order 2: `Nc` is the exact ζ-derivative of `N`. -/
theorem e3D2_c (a b : ℝ) (i : ℕ) (c : ℝ) :
    HasDerivAt (fun z => eval2ndEnrichmentFuncs3D_N a b z i)
      (eval2ndEnrichmentFuncs3D_Nc a b c i) c := by
  rcases i with _|_|_|_|_|_|_|_|_|i <;>
    simp only [eval2ndEnrichmentFuncs3D_N, eval2ndEnrichmentFuncs3D_Nc]
  · exact hasDerivAt_const c _
  · exact hasDerivAt_const c _
  · exact ((hasDerivAt_var c).mul_const _).congr_deriv (one_mul _)
  · exact hasDerivAt_const c _
  · exact hasDerivAt_const c _
  · exact ((hasDerivAt_var c).mul_const _).congr_deriv (one_mul _)
  · exact hasDerivAt_bub2 c
  · exact (hasDerivAt_bub2 c).const_mul a
  · exact (hasDerivAt_bub2 c).const_mul b
  · exact hasDerivAt_const c _

/-- 3D order 3: `Na` is the exact ξ-derivative of `N`. -/
theorem e3D3_a (b c : ℝ) (i : ℕ) (a : ℝ) :
    HasDerivAt (fun x => eval3rdEnrichmentFuncs3D_N x b c i)
      (eval3rdEnrichmentFuncs3D_Na a b c i) a := by
  rcases i with _|_|_|_|_|_|_|_|_|_|_|_|_|_|_|i <;>
    simp only [eval3rdEnrichmentFuncs3D_N, eval3rdEnrichmentFuncs3D_Na]
  · exact hasDerivAt_bub3 a
  · exact (hasDerivAt_bub3 a).const_mul b
  · exact (hasDerivAt_bub3 a).const_mul _
  · exact (hasDerivAt_bub3 a).const_mul c
  · exact (hasDerivAt_bub3 a).const_mul _
  · exact hasDerivAt_const a _
  · exact ((hasDerivAt_var a).mul_const _).congr_deriv (one_mul _)
  · exact (((hasDerivAt_var a).mul (hasDerivAt_var a)).mul_const _).congr_deriv (by ring)
  · exact hasDerivAt_const a _
  · exact hasDerivAt_const a _
  · exact hasDerivAt_const a _
  · exact ((hasDerivAt_var a).mul_const _).congr_deriv (one_mul _)
  · exact (((hasDerivAt_var a).mul (hasDerivAt_var a)).mul_const _).congr_deriv (by ring)
  · exact hasDerivAt_const a _
  · exact hasDerivAt_const a _
  · exact hasDerivAt_const a _

/-- 3D order 3: `Nb` is the exact η-derivative of `N`. -/
theorem e3D3_b (a c : ℝ) (i : ℕ) (b : ℝ) :
    HasDerivAt (fun y => eval3rdEnrichmentFuncs3D_N a y c i)
      (eval3rdEnrichmentFuncs3D_Nb a b c i) b := by
  rcases i with _|_|_|_|_|_|_|_|_|_|_|_|_|_|_|i <;>
    simp only [eval3rdEnrichmentFuncs3D_N, eval3rdEnrichmentFuncs3D_Nb]
  · exact hasDerivAt_const b _
  · exact ((hasDerivAt_var b).mul_const _).congr_deriv (one_mul _)
  · exact (((hasDerivAt_var b).mul (hasDerivAt_var b)).mul_const _).congr_deriv (by ring)
  · exact hasDerivAt_const b _
  · exact hasDerivAt_const b _
  · exact hasDerivAt_bub3 b
  · exact (hasDerivAt_bub3 b).const_mul a
  · exact (hasDerivAt_bub3 b).const_mul _
  · exact (hasDerivAt_bub3 b).const_mul c
  · exact (hasDerivAt_bub3 b).const_mul _
  · exact hasDerivAt_const b _
  · exact hasDerivAt_const b _
  · exact hasDerivAt_const b _
  · exact ((hasDerivAt_var b).mul_const _).congr_deriv (one_mul _)
  · exact (((hasDerivAt_var b).mul (hasDerivAt_var b)).mul_const _).congr_deriv (by ring)
  · exact hasDerivAt_const b _

/-- 3D order 3: `Nc` is the exact ζ-derivative of `N`. -/
theorem e3D3_c (a b : ℝ) (i : ℕ) (c : ℝ) :
    HasDerivAt (fun z => eval3rdEnrichmentFuncs3D_N a b z i)
      (eval3rdEnrichmentFuncs3D_Nc a b c i) c := by
  rcases i with _|_|_|_|_|_|_|_|_|_|_|_|_|_|_|i <;>
    simp only [eval3rdEnrichmentFuncs3D_N, eval3rdEnrichmentFuncs3D_Nc]
  · exact hasDerivAt_const c _
  · exact hasDerivAt_const c _
  · exact hasDerivAt_const c _
  · exact ((hasDerivAt_var c).mul_const _).congr_deriv (one_mul _)
  · exact (((hasDerivAt_var c).mul (hasDerivAt_var c)).mul_const _).congr_deriv (by ring)
  · exact hasDerivAt_const c _
  · exact hasDerivAt_const c _
  · exact hasDerivAt_const c _
  · exact ((hasDerivAt_var c).mul_const _).congr_deriv (one_mul _)
  · exact (((hasDerivAt_var c).mul (hasDerivAt_var c)).mul_const _).congr_deriv (by ring)
  · exact hasDerivAt_bub3 c
  · exact (hasDerivAt_bub3 c).const_mul a
  · exact (hasDerivAt_bub3 c).const_mul _
  · exact (hasDerivAt_bub3 c).const_mul b
  · exact (hasDerivAt_bub3 c).const_mul _
  · exact hasDerivAt_const c _

/-- All supported orders at once, ξ-direction, 2D. -/
theorem e2D_a (order : ℕ) (k1 k2 b : ℝ) (i : ℕ) (a : ℝ) :
    HasDerivAt (fun x => evalEnrichmentFuncs2D_N order k1 k2 x b i)
      (evalEnrichmentFuncs2D_Na order k1 k2 a b i) a := by
  rcases order with _|_|_|_|order
  · exact e2D4_a k1 k2 b i a
  · exact e2D4_a k1 k2 b i a
  · exact e2D2_a k1 k2 b i a
  · exact e2D3_a k1 k2 b i a
  · exact e2D4_a k1 k2 b i a

/-- All supported orders at once, η-direction, 2D. -/
theorem e2D_b (order : ℕ) (k1 k2 a : ℝ) (i : ℕ) (b : ℝ) :
    HasDerivAt (fun y => evalEnrichmentFuncs2D_N order k1 k2 a y i)
      (evalEnrichmentFuncs2D_Nb order k1 k2 a b i) b := by
  rcases order with _|_|_|_|order
  · exact e2D4_b k1 k2 a i b
  · exact e2D4_b k1 k2 a i b
  · exact e2D2_b k1 k2 a i b
  · exact e2D3_b k1 k2 a i b
  · exact e2D4_b k1 k2 a i b

/-- C9: For every supported order (2, 3, 4 in 2D; 2, 3 in 3D) and every
parametric point, the derivative arrays `Na`, `Nb` (and `Nc` in 3D) emitted by
the enrichment-basis evaluators are the exact analytic partial derivatives,
with respect to the corresponding parametric coordinate, of the
shape-function values `N` emitted by the same call (product rule applied to
the bubble factors, no finite differencing).  Stated for every order and
every array index: indices past the enrichment count hold 0 on both sides. -/
theorem C9_enrichment_derivatives_analytic (order : ℕ) (k1 k2 a b c : ℝ) (i : ℕ) :
    (HasDerivAt (fun x => evalEnrichmentFuncs2D_N order k1 k2 x b i)
        (evalEnrichmentFuncs2D_Na order k1 k2 a b i) a
      ∧ HasDerivAt (fun y => evalEnrichmentFuncs2D_N order k1 k2 a y i)
        (evalEnrichmentFuncs2D_Nb order k1 k2 a b i) b)
    ∧ (HasDerivAt (fun x => eval2ndEnrichmentFuncs3D_N x b c i)
        (eval2ndEnrichmentFuncs3D_Na a b c i) a
      ∧ HasDerivAt (fun y => eval2ndEnrichmentFuncs3D_N a y c i)
        (eval2ndEnrichmentFuncs3D_Nb a b c i) b
      ∧ HasDerivAt (fun z => eval2ndEnrichmentFuncs3D_N a b z i)
        (eval2ndEnrichmentFuncs3D_Nc a b c i) c)
    ∧ (HasDerivAt (fun x => eval3rdEnrichmentFuncs3D_N x b c i)
        (eval3rdEnrichmentFuncs3D_Na a b c i) a
      ∧ HasDerivAt (fun y => eval3rdEnrichmentFuncs3D_N a y c i)
        (eval3rdEnrichmentFuncs3D_Nb a b c i) b
      ∧ HasDerivAt (fun z => eval3rdEnrichmentFuncs3D_N a b z i)
        (eval3rdEnrichmentFuncs3D_Nc a b c i) c) :=
  ⟨⟨e2D_a order k1 k2 b i a, e2D_b order k1 k2 a i b⟩,
   ⟨e3D2_a b c i a, e3D2_b a c i b, e3D2_c a b i c⟩,
   ⟨e3D3_a b c i a, e3D3_b a c i b, e3D3_c a b i c⟩⟩

/-! ## TMRCurvatureConstraint::evalCurvature (claims C2, C10)

`g` holds the 3 gradient components, `H` the 6 packed entries of the symmetric
Hessian (`[0]`=xx, `[1]`=xy, `[2]`=xz, `[3]`=yy, `[4]`=yz, `[5]`=zz); `kw` is
the member `aggregate_weight`. -/

/-- Source `TMRCurvatureConstraint::evalCurvature(val, g, H)`, lines
5111-5173.  The C locals (`gn`, `Hf`, `Hfact`, `Hprod`, `KG`, `KM`, `sqrtk`,
`k1`, `k2`, `kmax`, `kdiff`, `factor`) are reproduced with `let`; the
init-to-zero-then-conditionally-assign of `KG`/`KM` becomes an `if`. -/
def evalCurvature (kw val : ℝ) (g H : ℕ → ℝ) : ℝ :=
  let gn := g 0*g 0 + g 1*g 1 + g 2*g 2
  let sqrtgn := Real.sqrt gn
  let Hf0 := H 3*H 5 - H 4*H 4
  let Hf1 := H 4*H 2 - H 1*H 5
  let Hf2 := H 1*H 4 - H 3*H 2
  let Hf3 := H 0*H 5 - H 2*H 2
  let Hf4 := H 1*H 2 - H 0*H 4
  let Hf5 := H 0*H 3 - H 1*H 1
  let Hfact := g 0*(Hf0*g 0 + Hf1*g 1 + Hf2*g 2)
             + g 1*(Hf1*g 0 + Hf3*g 1 + Hf4*g 2)
             + g 2*(Hf2*g 0 + Hf4*g 1 + Hf5*g 2)
  let Hprod := g 0*(H 0*g 0 + H 1*g 1 + H 2*g 2)
             + g 1*(H 1*g 0 + H 3*g 1 + H 4*g 2)
             + g 2*(H 2*g 0 + H 4*g 1 + H 5*g 2)
  let KG := if gn = 0 then 0 else Hfact/(gn*gn)
  let KM := if gn = 0 then 0 else 0.5*(Hprod - gn*(H 0 + H 3 + H 5))/(gn*sqrtgn)
  let sqrtk := Real.sqrt (KM*KM - KG)
  let k1 := |KM + sqrtk|
  let k2 := |KM - sqrtk|
  let kmax := if k1 > k2 then k1 else k2
  let kdiff := if k1 > k2 then k2 - k1 else k1 - k2
  let factor := 1 - 16*(val - 0.5)*(val - 0.5)*(val - 0.5)*(val - 0.5)
  factor*(kmax + Real.log (1 + Real.exp (kw*kdiff))/kw)

/-- `‖g‖²` as the source computes it (`gn`). -/
def curvGn (g : ℕ → ℝ) : ℝ := g 0*g 0 + g 1*g 1 + g 2*g 2

/-- `gᵀ cof(H) g` as the source computes it (`Hfact`). -/
def curvHfact (g H : ℕ → ℝ) : ℝ :=
  g 0*((H 3*H 5 - H 4*H 4)*g 0 + (H 4*H 2 - H 1*H 5)*g 1 + (H 1*H 4 - H 3*H 2)*g 2)
  + g 1*((H 4*H 2 - H 1*H 5)*g 0 + (H 0*H 5 - H 2*H 2)*g 1 + (H 1*H 2 - H 0*H 4)*g 2)
  + g 2*((H 1*H 4 - H 3*H 2)*g 0 + (H 1*H 2 - H 0*H 4)*g 1 + (H 0*H 3 - H 1*H 1)*g 2)

/-- `gᵀ H g` as the source computes it (`Hprod`). -/
def curvHprod (g H : ℕ → ℝ) : ℝ :=
  g 0*(H 0*g 0 + H 1*g 1 + H 2*g 2)
  + g 1*(H 1*g 0 + H 3*g 1 + H 4*g 2)
  + g 2*(H 2*g 0 + H 4*g 1 + H 5*g 2)

/-- The spec's Gaussian curvature `κ_G = gᵀ cof(H) g / ‖g‖⁴`. -/
def curvKG (g H : ℕ → ℝ) : ℝ := curvHfact g H / (Real.sqrt (curvGn g))^4

/-- The spec's mean curvature `κ_M = (gᵀ H g − ‖g‖² tr(H)) / (2‖g‖³)`. -/
def curvKM (g H : ℕ → ℝ) : ℝ :=
  (curvHprod g H - curvGn g*(H 0 + H 3 + H 5)) / (2*(Real.sqrt (curvGn g))^3)

/-- The per-element cost exactly as claim C2 words it:
`b·(κ_max + log(1+exp(k·(κ_min − κ_max)))/k)` with `b = 1 − 16(x−1/2)⁴`,
`κ_max = |κ_M| + √(κ_M² − κ_G)` and `κ_min = |κ_M| − √(κ_M² − κ_G)`. -/
def curvatureSpecFormula (kw val : ℝ) (g H : ℕ → ℝ) : ℝ :=
  let kM := curvKM g H
  let kG := curvKG g H
  let kmax := |kM| + Real.sqrt (kM*kM - kG)
  let kmin := |kM| - Real.sqrt (kM*kM - kG)
  (1 - 16*(val - 1/2)^4)*(kmax + Real.log (1 + Real.exp (kw*(kmin - kmax)))/kw)

/-- The amended per-element cost: identical to `curvatureSpecFormula` except
that the argument of the log-sum-exp term uses `|κ_min|` -- that is,
`| |κ_M| − √(κ_M² − κ_G) |` -- in place of `κ_min`.  When `κ_G ≥ 0` the two
coincide; the code differs from the claim exactly when `κ_G < 0`. -/
def curvatureSpecFormulaAmended (kw val : ℝ) (g H : ℕ → ℝ) : ℝ :=
  let kM := curvKM g H
  let kG := curvKG g H
  let kmax := |kM| + Real.sqrt (kM*kM - kG)
  let kmin := |(|kM| - Real.sqrt (kM*kM - kG))|
  (1 - 16*(val - 1/2)^4)*(kmax + Real.log (1 + Real.exp (kw*(kmin - kmax)))/kw)

/-- The guarded Gaussian curvature the code computes (`KG`). -/
def codeKG (g H : ℕ → ℝ) : ℝ :=
  if curvGn g = 0 then 0 else curvHfact g H/(curvGn g*curvGn g)

/-- The guarded mean curvature the code computes (`KM`). -/
def codeKM (g H : ℕ → ℝ) : ℝ :=
  if curvGn g = 0 then 0
  else 0.5*(curvHprod g H - curvGn g*(H 0 + H 3 + H 5))/(curvGn g*Real.sqrt (curvGn g))

/-- `sqrtk` as computed by the code. -/
def codeSqrtk (g H : ℕ → ℝ) : ℝ := Real.sqrt (codeKM g H*codeKM g H - codeKG g H)

/-- `k1 = |KM + sqrtk|` as computed by the code. -/
def codeK1 (g H : ℕ → ℝ) : ℝ := |codeKM g H + codeSqrtk g H|

/-- `k2 = |KM - sqrtk|` as computed by the code. -/
def codeK2 (g H : ℕ → ℝ) : ℝ := |codeKM g H - codeSqrtk g H|

/-- `kmax` as computed by the code. -/
def codeKmax (g H : ℕ → ℝ) : ℝ :=
  if codeK1 g H > codeK2 g H then codeK1 g H else codeK2 g H

/-- `kdiff` as computed by the code. -/
def codeKdiff (g H : ℕ → ℝ) : ℝ :=
  if codeK1 g H > codeK2 g H then codeK2 g H - codeK1 g H else codeK1 g H - codeK2 g H

/-- Renaming the locals of `evalCurvature` by the definitions above (pure
unfolding, no simplification). -/
theorem evalCurvature_eq (kw val : ℝ) (g H : ℕ → ℝ) :
    evalCurvature kw val g H =
      (1 - 16*(val - 0.5)*(val - 0.5)*(val - 0.5)*(val - 0.5)) *
        (codeKmax g H + Real.log (1 + Real.exp (kw*codeKdiff g H))/kw) := rfl

theorem codeKG_eq (g H : ℕ → ℝ) (hg : curvGn g ≠ 0) : codeKG g H = curvKG g H := by
  have hgn0 : 0 ≤ curvGn g := by
    have h0 := mul_self_nonneg (g 0)
    have h1 := mul_self_nonneg (g 1)
    have h2 := mul_self_nonneg (g 2)
    unfold curvGn; linarith
  have hsq : Real.sqrt (curvGn g)^2 = curvGn g := Real.sq_sqrt hgn0
  rw [codeKG, if_neg hg, curvKG, show (Real.sqrt (curvGn g))^4 = curvGn g*curvGn g by
    rw [show (4:ℕ) = 2*2 from rfl, pow_mul, hsq, sq]]

theorem codeKM_eq (g H : ℕ → ℝ) (hg : curvGn g ≠ 0) : codeKM g H = curvKM g H := by
  have hgn0 : 0 ≤ curvGn g := by
    have h0 := mul_self_nonneg (g 0)
    have h1 := mul_self_nonneg (g 1)
    have h2 := mul_self_nonneg (g 2)
    unfold curvGn; linarith
  have hsq : Real.sqrt (curvGn g)^2 = curvGn g := Real.sq_sqrt hgn0
  have h3 : (Real.sqrt (curvGn g))^3 = curvGn g*Real.sqrt (curvGn g) := by
    rw [pow_succ, hsq]
  rw [codeKM, if_neg hg, curvKM, h3]
  ring

/-- `max(|m+s|, |m-s|) = |m| + s` for `s ≥ 0`, in the code's `if` form. -/
theorem ite_max_abs (m s : ℝ) (hs : 0 ≤ s) :
    (if |m + s| > |m - s| then |m + s| else |m - s|) = |m| + s := by
  have habs2 : |m - s| ≤ |m| + s := by
    calc |m - s| ≤ |m| + |s| := abs_sub m s
    _ = |m| + s := by rw [abs_of_nonneg hs]
  have habs1 : |m + s| ≤ |m| + s := by
    calc |m + s| ≤ |m| + |s| := abs_add m s
    _ = |m| + s := by rw [abs_of_nonneg hs]
  rcases le_or_lt 0 m with h | h
  · have e1 : |m + s| = m + s := abs_of_nonneg (by linarith)
    rw [abs_of_nonneg h] at habs2 ⊢
    by_cases hcond : |m + s| > |m - s|
    · rw [if_pos hcond, e1]
    · rw [if_neg hcond]
      push_neg at hcond
      rw [e1] at hcond
      linarith
  · have e2 : |m - s| = |m| + s := by
      rw [abs_of_nonpos (by linarith), abs_of_neg h]; ring
    by_cases hcond : |m + s| > |m - s|
    · rw [e2] at hcond; linarith
    · rw [if_neg hcond, e2]

/-- The code's `kdiff` equals `||m| - s| - (|m| + s)` for `s ≥ 0`. -/
theorem ite_diff_abs (m s : ℝ) (hs : 0 ≤ s) :
    (if |m + s| > |m - s| then |m - s| - |m + s| else |m + s| - |m - s|)
      = |(|m| - s)| - (|m| + s) := by
  rcases le_or_lt 0 m with h | h
  · have e0 : |(|m| - s)| = |m - s| := by rw [abs_of_nonneg h]
    have e1 : |m + s| = m + s := abs_of_nonneg (by linarith)
    have habs2 : |m - s| ≤ m + s := by
      calc |m - s| ≤ |m| + |s| := abs_sub m s
      _ = m + s := by rw [abs_of_nonneg hs, abs_of_nonneg h]
    by_cases hcond : |m + s| > |m - s|
    · rw [if_pos hcond, e0, e1, abs_of_nonneg h]
    · rw [if_neg hcond]
      push_neg at hcond
      rw [e1] at hcond
      rw [e0, abs_of_nonneg h]
      linarith
  · have e2 : |m - s| = |m| + s := by
      rw [abs_of_nonpos (by linarith), abs_of_neg h]; ring
    have e0 : |(|m| - s)| = |m + s| := by
      rw [abs_of_neg h, show -m - s = -(m + s) by ring, abs_neg]
    have habs1 : |m + s| ≤ |m| + s := by
      calc |m + s| ≤ |m| + |s| := abs_add m s
      _ = |m| + s := by rw [abs_of_nonneg hs]
    by_cases hcond : |m + s| > |m - s|
    · rw [e2] at hcond; linarith
    · rw [if_neg hcond, e0, e2]

/-- C2 (amended): with a nonzero gradient, `evalCurvature` returns
`b·(κ_max + log(1+exp(k·(|κ_min| − κ_max)))/k)`: the claim's formula with
`κ_min` replaced by its absolute value `| |κ_M| − √(κ_M²−κ_G) |`. -/
theorem C2_evalCurvature_amended (kw val : ℝ) (g H : ℕ → ℝ) (hg : curvGn g ≠ 0) :
    evalCurvature kw val g H = curvatureSpecFormulaAmended kw val g H := by
  rw [evalCurvature_eq]
  have hs' : codeSqrtk g H = Real.sqrt (curvKM g H*curvKM g H - curvKG g H) := by
    rw [codeSqrtk, codeKM_eq g H hg, codeKG_eq g H hg]
  have hmax : codeKmax g H = |codeKM g H| + codeSqrtk g H := by
    rw [codeKmax, codeK1, codeK2]
    exact ite_max_abs _ _ (Real.sqrt_nonneg _)
  have hdiff : codeKdiff g H
      = |(|codeKM g H| - codeSqrtk g H)| - (|codeKM g H| + codeSqrtk g H) := by
    rw [codeKdiff, codeK1, codeK2]
    exact ite_diff_abs _ _ (Real.sqrt_nonneg _)
  rw [hmax, hdiff, codeKM_eq g H hg, hs', curvatureSpecFormulaAmended]
  congr 1
  ring

/-- Gradient used by the C2 counterexample: `g = (1,0,0)`. -/
def ceG : ℕ → ℝ := fun n => if n = 0 then 1 else 0

/-- Hessian used by the C2 counterexample: `H = diag(0,1,-1)` packed, so
`κ_G = -1 < 0` while `κ_M = 0`. -/
def ceH : ℕ → ℝ := fun n => if n = 3 then 1 else if n = 5 then -1 else 0

/-- C2 is false as stated: at `x = 1/2`, `g = (1,0,0)`, `H = diag(0,1,-1)`
(packed) and `aggregate_weight = 1`, the code returns `1 + log 2` while the
claim's formula gives `1 + log(1 + e⁻²)`.  Here `κ_G = -1 < 0`, so the code's
`kdiff = min(k1,k2) - max(k1,k2) = 0` differs from the claim's
`κ_min - κ_max = -2`. -/
theorem C2_counterexample :
    evalCurvature 1 (1/2) ceG ceH ≠ curvatureSpecFormula 1 (1/2) ceG ceH := by
  have hg : curvGn ceG ≠ 0 := by norm_num [curvGn, ceG]
  have hKG : codeKG ceG ceH = -1 := by
    rw [codeKG, if_neg hg]
    norm_num [curvGn, curvHfact, ceG, ceH]
  have hKM : codeKM ceG ceH = 0 := by
    rw [codeKM, if_neg hg]
    norm_num [curvGn, curvHprod, ceG, ceH]
  have hsqrtk : codeSqrtk ceG ceH = 1 := by
    rw [codeSqrtk, hKM, hKG]; norm_num [Real.sqrt_one]
  have h1 : codeK1 ceG ceH = 1 := by rw [codeK1, hKM, hsqrtk]; norm_num
  have h2 : codeK2 ceG ceH = 1 := by rw [codeK2, hKM, hsqrtk]; norm_num
  have hmax : codeKmax ceG ceH = 1 := by rw [codeKmax, h1, h2]; norm_num
  have hdiff : codeKdiff ceG ceH = 0 := by rw [codeKdiff, h1, h2]; norm_num
  have hKG' : curvKG ceG ceH = -1 := by rw [← codeKG_eq ceG ceH hg]; exact hKG
  have hKM' : curvKM ceG ceH = 0 := by rw [← codeKM_eq ceG ceH hg]; exact hKM
  have hlt : Real.log (1 + Real.exp (-2)) < Real.log 2 := by
    apply Real.log_lt_log (by positivity)
    have hx : Real.exp (-2 : ℝ) < 1 := Real.exp_lt_one_iff.mpr (by norm_num)
    linarith
  simp only [curvatureSpecFormula]
  rw [evalCurvature_eq, hmax, hdiff, hKG', hKM']
  norm_num [Real.exp_zero, Real.sqrt_one]
  intro heq
  linarith

/-- C10: with `‖g‖² = 0` both curvature divisions are guarded: the code takes
`κ_G = κ_M = 0` exactly, and returns the KS expression built from those zero
curvatures (`kmax = 0`, `kdiff = 0`) instead of dividing by zero. -/
theorem C10_evalCurvature_zero_gradient (kw val : ℝ) (g H : ℕ → ℝ)
    (hg : curvGn g = 0) :
    codeKG g H = 0 ∧ codeKM g H = 0 ∧
      evalCurvature kw val g H
        = (1 - 16*(val - 0.5)*(val - 0.5)*(val - 0.5)*(val - 0.5))
            *(0 + Real.log (1 + Real.exp (kw*0))/kw) := by
  have hKG : codeKG g H = 0 := by rw [codeKG, if_pos hg]
  have hKM : codeKM g H = 0 := by rw [codeKM, if_pos hg]
  refine ⟨hKG, hKM, ?_⟩
  have hsq : codeSqrtk g H = 0 := by
    rw [codeSqrtk, hKM, hKG]; norm_num [Real.sqrt_zero]
  have h1 : codeK1 g H = 0 := by rw [codeK1, hKM, hsq]; norm_num
  have h2 : codeK2 g H = 0 := by rw [codeK2, hKM, hsq]; norm_num
  have hmax : codeKmax g H = 0 := by rw [codeKmax, h1, h2]; norm_num
  have hdiff : codeKdiff g H = 0 := by rw [codeKdiff, h1, h2]; norm_num
  rw [evalCurvature_eq, hmax, hdiff]

/-- Witness for C2 (amended) at the counterexample's concrete input. -/
theorem C2_amended_witness :
    curvGn ceG ≠ 0 ∧
      evalCurvature 1 (1/2) ceG ceH = curvatureSpecFormulaAmended 1 (1/2) ceG ceH :=
  ⟨by norm_num [curvGn, ceG],
   C2_evalCurvature_amended 1 (1/2) ceG ceH (by norm_num [curvGn, ceG])⟩

/-- Witness for C10 at a concrete zero-gradient input. -/
theorem C10_witness :
    curvGn (fun _ => 0) = 0 ∧
      (codeKG (fun _ => 0) (fun _ => 1) = 0 ∧ codeKM (fun _ => 0) (fun _ => 1) = 0 ∧
        evalCurvature 1 (1/2) (fun _ => 0) (fun _ => 1)
          = (1 - 16*((1:ℝ)/2 - 0.5)*((1:ℝ)/2 - 0.5)*((1:ℝ)/2 - 0.5)*((1:ℝ)/2 - 0.5))
              *(0 + Real.log (1 + Real.exp (1*0))/1)) :=
  ⟨by norm_num [curvGn],
   C10_evalCurvature_zero_gradient 1 (1/2) (fun _ => 0) (fun _ => 1) (by norm_num [curvGn])⟩

/-! ## addRefinedSolution3D scratch-buffer sizes (claim C5) -/

/-- Number of `TacsScalar` entries allocated for the per-element
refined-solution scratch buffer `uref` in `addRefinedSolution3D`:
`new TacsScalar[ vars_per_node*order*order*order ]` (the COARSE order). -/
def addRefinedSolution3D_urefAlloc (vars_per_node order : ℕ) : ℕ :=
  vars_per_node*order*order*order

/-- Number of `uref` entries the body of `addRefinedSolution3D` actually
touches: the `memset` covers `vars_per_node*num_refined_nodes` entries with
`num_refined_nodes = refined_order^3`, the interpolation loops write offsets
`vars_per_node*(n + refined_order*m + refined_order*refined_order*p) + j`
for all `n, m, p < refined_order`, `j < vars_per_node`, and the
dependent-node zeroing loop covers `vars_per_node*i + j` for
`i < num_refined_nodes`. -/
def addRefinedSolution3D_urefWriteExtent (vars_per_node refined_order : ℕ) : ℕ :=
  vars_per_node*(refined_order*refined_order*refined_order)

/-- C5 (code bug): the refined-solution writes do NOT stay inside the `uref`
allocation.  At `vars_per_node = 1`, `order = 2`, `refined_order = 3`
(the order-elevated reconstruction path), the buffer holds 8 entries while
the loops touch 27: the claim's required bound
`alloc ≥ vars_per_node*refined_order³` fails. -/
theorem C5_uref_overflow :
    addRefinedSolution3D_urefAlloc 1 2 < addRefinedSolution3D_urefWriteExtent 1 3 := by
  decide

/-- The overflow is generic: whenever the refined order exceeds the coarse
order and there is at least one variable per node, the write extent exceeds
the allocation. -/
theorem addRefinedSolution3D_uref_overflow_general
    (vars_per_node order refined_order : ℕ)
    (hv : 0 < vars_per_node) (ho : order < refined_order) :
    addRefinedSolution3D_urefAlloc vars_per_node order
      < addRefinedSolution3D_urefWriteExtent vars_per_node refined_order := by
  unfold addRefinedSolution3D_urefAlloc addRefinedSolution3D_urefWriteExtent
  have h1 : order*order*order < refined_order*refined_order*refined_order := by
    have e : ∀ n : ℕ, n*n*n = n^3 := fun n => by ring
    rw [e, e]
    exact Nat.pow_lt_pow_left ho (by norm_num)
  calc vars_per_node*order*order*order = vars_per_node*(order*order*order) := by ring
  _ < vars_per_node*(refined_order*refined_order*refined_order) :=
      mul_lt_mul_of_pos_left h1 hv

/-! ## Jacobian kernel (source `computeJacobianTrans2D/3D`)

The source accumulates the coordinate-derivative matrix `Xd` over the element
nodes and hands it to the external `FElibrary::jacobian3d`, which returns the
inverse transpose `J` together with `detJ`; that external routine is carried
as a parameter `jac3d` below.  The accumulation loops are written as the sums
they compute. -/

/-- `Xd` as built by `computeJacobianTrans3D` (3x3, flattened row-major):
`Xd[3r+c] = Σ_i Xpts[3i+c]·dN_r[i]` where `dN_0 = Na`, `dN_1 = Nb`,
`dN_2 = Nc`. -/
def computeJacobianTrans3D_Xd (num_nodes : ℕ) (Xpts : ℕ → ℝ)
    (Na Nb Nc : ℕ → ℝ) : ℕ → ℝ := fun idx =>
  match idx with
  | 0 => ∑ i ∈ Finset.range num_nodes, Xpts (3*i) * Na i
  | 1 => ∑ i ∈ Finset.range num_nodes, Xpts (3*i+1) * Na i
  | 2 => ∑ i ∈ Finset.range num_nodes, Xpts (3*i+2) * Na i
  | 3 => ∑ i ∈ Finset.range num_nodes, Xpts (3*i) * Nb i
  | 4 => ∑ i ∈ Finset.range num_nodes, Xpts (3*i+1) * Nb i
  | 5 => ∑ i ∈ Finset.range num_nodes, Xpts (3*i+2) * Nb i
  | 6 => ∑ i ∈ Finset.range num_nodes, Xpts (3*i) * Nc i
  | 7 => ∑ i ∈ Finset.range num_nodes, Xpts (3*i+1) * Nc i
  | 8 => ∑ i ∈ Finset.range num_nodes, Xpts (3*i+2) * Nc i
  | _ => 0

/-- `Tensor::crossProduct3D`.  Modelled from the spec: the external TACS
tensor helper computing the 3D cross product. -/
def crossProduct3D (a b : ℝ × ℝ × ℝ) : ℝ × ℝ × ℝ :=
  (a.2.1*b.2.2 - a.2.2*b.2.1, a.2.2*b.1 - a.1*b.2.2, a.1*b.2.1 - a.2.1*b.1)

/-- `Tensor::normalize3D`.  Modelled from the spec ("the third row is computed
as the unit normal"): the external TACS tensor helper dividing a vector by
its Euclidean norm. -/
def normalize3D (v : ℝ × ℝ × ℝ) : ℝ × ℝ × ℝ :=
  let n := Real.sqrt (v.1*v.1 + v.2.1*v.2.1 + v.2.2*v.2.2)
  (v.1/n, v.2.1/n, v.2.2/n)

/-- `Xd` as built by `computeJacobianTrans2D`: the first two rows are
accumulated from `(Na, Nb)`, the third row is the normalized cross product of
the first two. -/
def computeJacobianTrans2D_Xd (num_nodes : ℕ) (Xpts : ℕ → ℝ)
    (Na Nb : ℕ → ℝ) : ℕ → ℝ := fun idx =>
  match idx with
  | 0 => ∑ i ∈ Finset.range num_nodes, Xpts (3*i) * Na i
  | 1 => ∑ i ∈ Finset.range num_nodes, Xpts (3*i+1) * Na i
  | 2 => ∑ i ∈ Finset.range num_nodes, Xpts (3*i+2) * Na i
  | 3 => ∑ i ∈ Finset.range num_nodes, Xpts (3*i) * Nb i
  | 4 => ∑ i ∈ Finset.range num_nodes, Xpts (3*i+1) * Nb i
  | 5 => ∑ i ∈ Finset.range num_nodes, Xpts (3*i+2) * Nb i
  | 6 => (normalize3D (crossProduct3D
      (∑ i ∈ Finset.range num_nodes, Xpts (3*i) * Na i,
       ∑ i ∈ Finset.range num_nodes, Xpts (3*i+1) * Na i,
       ∑ i ∈ Finset.range num_nodes, Xpts (3*i+2) * Na i)
      (∑ i ∈ Finset.range num_nodes, Xpts (3*i) * Nb i,
       ∑ i ∈ Finset.range num_nodes, Xpts (3*i+1) * Nb i,
       ∑ i ∈ Finset.range num_nodes, Xpts (3*i+2) * Nb i))).1
  | 7 => (normalize3D (crossProduct3D
      (∑ i ∈ Finset.range num_nodes, Xpts (3*i) * Na i,
       ∑ i ∈ Finset.range num_nodes, Xpts (3*i+1) * Na i,
       ∑ i ∈ Finset.range num_nodes, Xpts (3*i+2) * Na i)
      (∑ i ∈ Finset.range num_nodes, Xpts (3*i) * Nb i,
       ∑ i ∈ Finset.range num_nodes, Xpts (3*i+1) * Nb i,
       ∑ i ∈ Finset.range num_nodes, Xpts (3*i+2) * Nb i))).2.1
  | 8 => (normalize3D (crossProduct3D
      (∑ i ∈ Finset.range num_nodes, Xpts (3*i) * Na i,
       ∑ i ∈ Finset.range num_nodes, Xpts (3*i+1) * Na i,
       ∑ i ∈ Finset.range num_nodes, Xpts (3*i+2) * Na i)
      (∑ i ∈ Finset.range num_nodes, Xpts (3*i) * Nb i,
       ∑ i ∈ Finset.range num_nodes, Xpts (3*i+1) * Nb i,
       ∑ i ∈ Finset.range num_nodes, Xpts (3*i+2) * Nb i))).2.2
  | _ => 0

/-! ## Nodal-derivative projector (source `computeNodeDeriv3D`,
`computeNodeDeriv2D`, `computeLocalWeights`; claims C3, C4)

The context bundles the element order, the collaborator read-backs
(`uvec->getValues`, `weights->getValues`, node numbers, node coordinates) and
the external basis/Jacobian routines. -/

structure NodeDeriv3DCtx where
  order : ℕ
  vars_per_node : ℕ
  nelems : ℕ
  /-- interpolation knots of the forest -/
  knots : ℕ → ℝ
  /-- `forest->evalInterp` derivative outputs at a parametric point -/
  iNa : ℝ → ℝ → ℝ → ℕ → ℝ
  iNb : ℝ → ℝ → ℝ → ℕ → ℝ
  iNc : ℝ → ℝ → ℝ → ℕ → ℝ
  /-- external `FElibrary::jacobian3d`: `Xd ↦ (J, detJ)` -/
  jac3d : (ℕ → ℝ) → (ℕ → ℝ) × ℝ
  /-- `tacs->getElement(e, &nodes, &len)`: element-local node numbers,
  negative = dependent -/
  nodes : ℕ → ℕ → ℤ
  /-- `uvec->getValues` read-back per element (flattened) -/
  uelem : ℕ → ℕ → ℝ
  /-- `weights->getValues` read-back per element -/
  welem : ℕ → ℕ → ℝ
  /-- element node coordinates (flattened, 3 per node) -/
  Xpts : ℕ → ℕ → ℝ

/-- Element-local tensor-product node index `ii + jj*order + kk*order*order`. -/
def localNodeIdx (order ii jj kk : ℕ) : ℕ := ii + jj*order + kk*order*order

/-- The Jacobian `J` returned by `jacobian3d` at knot `(ii,jj,kk)` of
element `e`. -/
def ndJ3D (c : NodeDeriv3DCtx) (e ii jj kk : ℕ) : ℕ → ℝ :=
  (c.jac3d (computeJacobianTrans3D_Xd (c.order*c.order*c.order) (c.Xpts e)
    (c.iNa (c.knots ii) (c.knots jj) (c.knots kk))
    (c.iNb (c.knots ii) (c.knots jj) (c.knots kk))
    (c.iNc (c.knots ii) (c.knots jj) (c.knots kk)))).1

/-- `Ud[3k+j]`: the reference-space gradient of variable `k` at the knot,
`Σ_i uelem[vars_per_node*i+k]·dN_j[i]`. -/
def ndUd3D (c : NodeDeriv3DCtx) (e ii jj kk k j : ℕ) : ℝ :=
  ∑ i ∈ Finset.range (c.order*c.order*c.order),
    c.uelem e (c.vars_per_node*i + k) *
      (if j = 0 then c.iNa (c.knots ii) (c.knots jj) (c.knots kk) i
       else if j = 1 then c.iNb (c.knots ii) (c.knots jj) (c.knots kk) i
       else c.iNc (c.knots ii) (c.knots jj) (c.knots kk) i)

/-- The physical-space gradient sample an element contributes at its local
node `(ii,jj,kk)` for variable `k`, component `r` (before `1/w` scaling):
row `r` of `Ud·J`. -/
def gradSample3D (c : NodeDeriv3DCtx) (e ii jj kk k r : ℕ) : ℝ :=
  ndUd3D c e ii jj kk k 0 * ndJ3D c e ii jj kk (3*r)
  + ndUd3D c e ii jj kk k 1 * ndJ3D c e ii jj kk (3*r+1)
  + ndUd3D c e ii jj kk k 2 * ndJ3D c e ii jj kk (3*r+2)

/-- The value `computeNodeDeriv3D` writes into `delem` for local node
`(ii,jj,kk)`, variable `k`, component `r`: the `1/w`-scaled gradient sample at
independent nodes, zero at dependent slots. -/
def delem3D (c : NodeDeriv3DCtx) (e ii jj kk k r : ℕ) : ℝ :=
  if 0 ≤ c.nodes e (localNodeIdx c.order ii jj kk)
  then (1/c.welem e (localNodeIdx c.order ii jj kk)) * gradSample3D c e ii jj kk k r
  else 0

/-- The weight vector built by `computeLocalWeights` after finalize-add: the
count of (element, slot) pairs referencing node `n` through a non-dependent
slot (dependent slots contribute `welem[j] = 0`). -/
def localWeight3D (c : NodeDeriv3DCtx) (n : ℕ) : ℝ :=
  ∑ e ∈ Finset.range c.nelems, ∑ kk ∈ Finset.range c.order,
    ∑ jj ∈ Finset.range c.order, ∑ ii ∈ Finset.range c.order,
      if c.nodes e (localNodeIdx c.order ii jj kk) = (n:ℤ) then 1 else 0

/-- The derivative vector after `setValues(ADD)` over all elements plus
finalize-add (the Vec contract: the owner of node `n` holds the sum of all
contributions, and distribute makes it visible): the sum of the `delem`
entries deposited at node `n`. -/
def uderivAcc3D (c : NodeDeriv3DCtx) (n k r : ℕ) : ℝ :=
  ∑ e ∈ Finset.range c.nelems, ∑ kk ∈ Finset.range c.order,
    ∑ jj ∈ Finset.range c.order, ∑ ii ∈ Finset.range c.order,
      if c.nodes e (localNodeIdx c.order ii jj kk) = (n:ℤ)
      then delem3D c e ii jj kk k r else 0

/-- The 3D half of C4: after finalize-add and distribute, the accumulated
derivative at node `n` is `1/w[n]` times the sum, over the (element, slot)
pairs referencing `n`, of that element's physical-space gradient sample at
`n` (each contribution was scaled by `1/w[n]` before accumulation, `welem`
being the distributed weight vector); and every slot whose element-local
node index is negative contributes exactly zero. -/
theorem nodeDeriv3D_avg (c : NodeDeriv3DCtx) (n k r : ℕ)
    (hw : ∀ e kk jj ii, e < c.nelems → kk < c.order → jj < c.order → ii < c.order →
      c.nodes e (localNodeIdx c.order ii jj kk) = (n:ℤ) →
      c.welem e (localNodeIdx c.order ii jj kk) = localWeight3D c n) :
    uderivAcc3D c n k r
      = (1/localWeight3D c n) *
        (∑ e ∈ Finset.range c.nelems, ∑ kk ∈ Finset.range c.order,
          ∑ jj ∈ Finset.range c.order, ∑ ii ∈ Finset.range c.order,
            if c.nodes e (localNodeIdx c.order ii jj kk) = (n:ℤ)
            then gradSample3D c e ii jj kk k r else 0)
    ∧ ∀ e ii jj kk, c.nodes e (localNodeIdx c.order ii jj kk) < 0 →
        delem3D c e ii jj kk k r = 0 := by
  constructor
  · simp only [uderivAcc3D, Finset.mul_sum]
    refine Finset.sum_congr rfl fun e he => ?_
    refine Finset.sum_congr rfl fun kk hkk => ?_
    refine Finset.sum_congr rfl fun jj hjj => ?_
    refine Finset.sum_congr rfl fun ii hii => ?_
    by_cases hn : c.nodes e (localNodeIdx c.order ii jj kk) = (n:ℤ)
    · rw [if_pos hn, if_pos hn, delem3D, if_pos (by simp [hn]),
        hw e kk jj ii (Finset.mem_range.mp he) (Finset.mem_range.mp hkk)
          (Finset.mem_range.mp hjj) (Finset.mem_range.mp hii) hn]
    · rw [if_neg hn, if_neg hn, mul_zero]
  · intro e ii jj kk hneg
    rw [delem3D, if_neg (not_le.mpr hneg)]

/-! ## Patch reconstruction (source `computeElemRecon2D/3D`; claims C3, C6, C1)

The LAPACK `dgelss` call is the external rank-revealing least-squares solver;
it is carried as a parameter `solver : A → b → solution` (column-major arrays
as flat functions, solution laid out LAPACK-style in the `b` array:
entry `neq*j + i` holds unknown `i` of right-hand side `j`). -/

/-- The 2D least-squares weights `wvals` (source lines 1170-1181): the final
`else` covers order 4. -/
def wvals2D (order : ℕ) : ℕ → ℝ :=
  match order with
  | 2 => fun i => match i with | 0 => 1 | 1 => 1 | _ => 0
  | 3 => fun i => match i with | 0 => 0.5 | 1 => 1 | 2 => 0.5 | _ => 0
  | _ => fun i => match i with | 0 => 0.5 | 1 => 1 | 2 => 1 | 3 => 0.5 | _ => 0

/-- The 3D least-squares weights `wvals` (source lines 1337-1344): only
orders 2 and 3 are initialized. -/
def wvals3D (order : ℕ) : ℕ → ℝ :=
  match order with
  | 2 => fun i => match i with | 0 => 1 | 1 => 1 | _ => 0
  | 3 => fun i => match i with | 0 => 0.5 | 1 => 1 | 2 => 0.5 | _ => 0
  | _ => fun _ => 0

/-- 3D enrichment values dispatched on the order (source: the
`if (order == 2) ... else if (order == 3)` dispatch; other orders leave the
arrays unwritten). -/
def enrich3D_Nr (order : ℕ) (a b c : ℝ) : ℕ → ℝ :=
  match order with
  | 2 => eval2ndEnrichmentFuncs3D_N a b c
  | 3 => eval3rdEnrichmentFuncs3D_N a b c
  | _ => fun _ => 0

/-- 3D enrichment ξ-derivatives dispatched on the order. -/
def enrich3D_Nar (order : ℕ) (a b c : ℝ) : ℕ → ℝ :=
  match order with
  | 2 => eval2ndEnrichmentFuncs3D_Na a b c
  | 3 => eval3rdEnrichmentFuncs3D_Na a b c
  | _ => fun _ => 0

/-- 3D enrichment η-derivatives dispatched on the order. -/
def enrich3D_Nbr (order : ℕ) (a b c : ℝ) : ℕ → ℝ :=
  match order with
  | 2 => eval2ndEnrichmentFuncs3D_Nb a b c
  | 3 => eval3rdEnrichmentFuncs3D_Nb a b c
  | _ => fun _ => 0

/-- 3D enrichment ζ-derivatives dispatched on the order. -/
def enrich3D_Ncr (order : ℕ) (a b c : ℝ) : ℕ → ℝ :=
  match order with
  | 2 => eval2ndEnrichmentFuncs3D_Nc a b c
  | 3 => eval3rdEnrichmentFuncs3D_Nc a b c
  | _ => fun _ => 0

/-- Collaborators of `computeElemRecon3D`: the coarse forest's `evalInterp`
derivatives (`cNa/cNb/cNc`), the refined forest's (`rNa/rNb/rNc`, used for
the Jacobian), the knot vector, the external Jacobian inversion and the
external least-squares solver. -/
structure Recon3DCtx where
  order : ℕ
  refined_order : ℕ
  vars_per_node : ℕ
  knots : ℕ → ℝ
  cNa : ℝ → ℝ → ℝ → ℕ → ℝ
  cNb : ℝ → ℝ → ℝ → ℕ → ℝ
  cNc : ℝ → ℝ → ℝ → ℕ → ℝ
  rNa : ℝ → ℝ → ℝ → ℕ → ℝ
  rNb : ℝ → ℝ → ℝ → ℕ → ℝ
  rNc : ℝ → ℝ → ℝ → ℕ → ℝ
  jac3d : (ℕ → ℝ) → (ℕ → ℝ) × ℝ
  solver : (ℕ → ℝ) → (ℕ → ℝ) → (ℕ → ℝ)

/-- The Jacobian at element knot `(ii,jj,kk)`, evaluated (as the source does)
with the refined forest's basis over `refined_order³` nodes. -/
def reconJ3D (rc : Recon3DCtx) (Xpts : ℕ → ℝ) (ii jj kk : ℕ) : ℕ → ℝ :=
  (rc.jac3d (computeJacobianTrans3D_Xd
    (rc.refined_order*rc.refined_order*rc.refined_order) Xpts
    (rc.rNa (rc.knots ii) (rc.knots jj) (rc.knots kk))
    (rc.rNb (rc.knots ii) (rc.knots jj) (rc.knots kk))
    (rc.rNc (rc.knots ii) (rc.knots jj) (rc.knots kk)))).1

/-- `Ua/Ub/Uc` (`j = 0,1,2`) of variable `k` at element knot `(ii,jj,kk)`:
the low-order interpolation's reference-space derivatives. -/
def reconUd3D (rc : Recon3DCtx) (uvals : ℕ → ℝ) (ii jj kk k j : ℕ) : ℝ :=
  ∑ i ∈ Finset.range (rc.order*rc.order*rc.order),
    uvals (rc.vars_per_node*i + k) *
      (if j = 0 then rc.cNa (rc.knots ii) (rc.knots jj) (rc.knots kk) i
       else if j = 1 then rc.cNb (rc.knots ii) (rc.knots jj) (rc.knots kk) i
       else rc.cNc (rc.knots ii) (rc.knots jj) (rc.knots kk) i)

/-- The right-hand side `b` of the 3D least-squares problem, flat with
`b[neq*k + 3*(ii + order*jj + order²*kk) + r]`: the weighted mismatch between
the prescribed nodal derivative and the low-order interpolation's
derivative. -/
def reconB3D (rc : Recon3DCtx) (Xpts uvals uderiv : ℕ → ℝ) : ℕ → ℝ := fun idx =>
  let neq := 3*rc.order*rc.order*rc.order
  let k := idx / neq
  let cc := idx % neq
  let r := cc % 3
  let q := cc / 3
  let ii := q % rc.order
  let jj := q / rc.order % rc.order
  let kk := q / (rc.order*rc.order)
  let w := wvals3D rc.order ii * wvals3D rc.order jj * wvals3D rc.order kk
  let J := reconJ3D rc Xpts ii jj kk
  w * uderiv (3*rc.vars_per_node*localNodeIdx rc.order ii jj kk + 3*k + r)
    - w * (reconUd3D rc uvals ii jj kk k 0 * J (3*r)
         + reconUd3D rc uvals ii jj kk k 1 * J (3*r+1)
         + reconUd3D rc uvals ii jj kk k 2 * J (3*r+2))

/-- The matrix `A` of the 3D least-squares problem, flat column-major with
`A[neq*i + 3*(ii + order*jj + order²*kk) + r]`: the physical-space derivative
of enrichment function `i`, weighted. -/
def reconA3D (rc : Recon3DCtx) (Xpts : ℕ → ℝ) : ℕ → ℝ := fun idx =>
  let neq := 3*rc.order*rc.order*rc.order
  let i := idx / neq
  let cc := idx % neq
  let r := cc % 3
  let q := cc / 3
  let ii := q % rc.order
  let jj := q / rc.order % rc.order
  let kk := q / (rc.order*rc.order)
  let w := wvals3D rc.order ii * wvals3D rc.order jj * wvals3D rc.order kk
  let J := reconJ3D rc Xpts ii jj kk
  w * (enrich3D_Nar rc.order (rc.knots ii) (rc.knots jj) (rc.knots kk) i * J (3*r)
     + enrich3D_Nbr rc.order (rc.knots ii) (rc.knots jj) (rc.knots kk) i * J (3*r+1)
     + enrich3D_Ncr rc.order (rc.knots ii) (rc.knots jj) (rc.knots kk) i * J (3*r+2))

/-- Source `computeElemRecon3D`: assemble `A` and `b`, call the least-squares
solver and reshape: `ubar[vars_per_node*i + j] = sol[neq*j + i]`. -/
def computeElemRecon3D (rc : Recon3DCtx) (Xpts uvals uderiv : ℕ → ℝ) : ℕ → ℝ :=
  fun idx =>
    rc.solver (reconA3D rc Xpts) (reconB3D rc Xpts uvals uderiv)
      (3*rc.order*rc.order*rc.order*(idx % rc.vars_per_node) + idx / rc.vars_per_node)

/-- Collaborators of `computeElemRecon2D` (shell variant): coarse and refined
`evalInterp`, both knot vectors (the enrichment functions receive the REFINED
knots), the external Jacobian inversion and the external solver. -/
structure Recon2DCtx where
  order : ℕ
  refined_order : ℕ
  vars_per_node : ℕ
  knots : ℕ → ℝ
  rknots : ℕ → ℝ
  cNa : ℝ → ℝ → ℕ → ℝ
  cNb : ℝ → ℝ → ℕ → ℝ
  rNa : ℝ → ℝ → ℕ → ℝ
  rNb : ℝ → ℝ → ℕ → ℝ
  jac3d : (ℕ → ℝ) → (ℕ → ℝ) × ℝ
  solver : (ℕ → ℝ) → (ℕ → ℝ) → (ℕ → ℝ)

/-- `Xd` at element knot `(ii,jj)` via the refined basis over
`refined_order²` nodes. -/
def reconXd2D (rc : Recon2DCtx) (Xpts : ℕ → ℝ) (ii jj : ℕ) : ℕ → ℝ :=
  computeJacobianTrans2D_Xd (rc.refined_order*rc.refined_order) Xpts
    (rc.rNa (rc.knots ii) (rc.knots jj)) (rc.rNb (rc.knots ii) (rc.knots jj))

/-- The Jacobian at element knot `(ii,jj)`. -/
def reconJ2D (rc : Recon2DCtx) (Xpts : ℕ → ℝ) (ii jj : ℕ) : ℕ → ℝ :=
  (rc.jac3d (reconXd2D rc Xpts ii jj)).1

/-- The local frame direction `d1`: the normalized first row of `Xd`. -/
def reconD1 (rc : Recon2DCtx) (Xpts : ℕ → ℝ) (ii jj : ℕ) : ℝ × ℝ × ℝ :=
  normalize3D (reconXd2D rc Xpts ii jj 0, reconXd2D rc Xpts ii jj 1,
    reconXd2D rc Xpts ii jj 2)

/-- The local frame direction `d2 = n × d1` (`n` is the third row of `Xd`). -/
def reconD2 (rc : Recon2DCtx) (Xpts : ℕ → ℝ) (ii jj : ℕ) : ℝ × ℝ × ℝ :=
  crossProduct3D (reconXd2D rc Xpts ii jj 6, reconXd2D rc Xpts ii jj 7,
    reconXd2D rc Xpts ii jj 8) (reconD1 rc Xpts ii jj)

/-- `Ua/Ub` (`j = 0,1`) of variable `k` at element knot `(ii,jj)`. -/
def reconUd2D (rc : Recon2DCtx) (uvals : ℕ → ℝ) (ii jj k j : ℕ) : ℝ :=
  ∑ i ∈ Finset.range (rc.order*rc.order),
    uvals (rc.vars_per_node*i + k) *
      (if j = 0 then rc.cNa (rc.knots ii) (rc.knots jj) i
       else rc.cNb (rc.knots ii) (rc.knots jj) i)

/-- The physical-space derivative `d` of the low-order interpolation at
element knot `(ii,jj)`, variable `k`. -/
def reconDvec2D (rc : Recon2DCtx) (Xpts uvals : ℕ → ℝ) (ii jj k : ℕ) : ℝ × ℝ × ℝ :=
  (reconUd2D rc uvals ii jj k 0 * reconJ2D rc Xpts ii jj 0
     + reconUd2D rc uvals ii jj k 1 * reconJ2D rc Xpts ii jj 1,
   reconUd2D rc uvals ii jj k 0 * reconJ2D rc Xpts ii jj 3
     + reconUd2D rc uvals ii jj k 1 * reconJ2D rc Xpts ii jj 4,
   reconUd2D rc uvals ii jj k 0 * reconJ2D rc Xpts ii jj 6
     + reconUd2D rc uvals ii jj k 1 * reconJ2D rc Xpts ii jj 7)

/-- The right-hand side `b` of the 2D least-squares problem, flat with
`b[neq*k + 2*(ii + order*jj) + r]` (`r = 0`: `d1` row, `r = 1`: `d2` row). -/
def reconB2D (rc : Recon2DCtx) (Xpts uvals uderiv : ℕ → ℝ) : ℕ → ℝ := fun idx =>
  let neq := 2*rc.order*rc.order
  let k := idx / neq
  let cc := idx % neq
  let r := cc % 2
  let q := cc / 2
  let ii := q % rc.order
  let jj := q / rc.order
  let w := wvals2D rc.order ii * wvals2D rc.order jj
  let dr := if r = 0 then reconD1 rc Xpts ii jj else reconD2 rc Xpts ii jj
  let d := reconDvec2D rc Xpts uvals ii jj k
  w * (dr.1 * uderiv (3*rc.vars_per_node*(ii + jj*rc.order) + 3*k)
     + dr.2.1 * uderiv (3*rc.vars_per_node*(ii + jj*rc.order) + 3*k + 1)
     + dr.2.2 * uderiv (3*rc.vars_per_node*(ii + jj*rc.order) + 3*k + 2))
    - w * (dr.1 * d.1 + dr.2.1 * d.2.1 + dr.2.2 * d.2.2)

/-- The matrix `A` of the 2D least-squares problem, flat column-major with
`A[neq*i + 2*(ii + order*jj) + r]`. -/
def reconA2D (rc : Recon2DCtx) (Xpts : ℕ → ℝ) : ℕ → ℝ := fun idx =>
  let neq := 2*rc.order*rc.order
  let i := idx / neq
  let cc := idx % neq
  let r := cc % 2
  let q := cc / 2
  let ii := q % rc.order
  let jj := q / rc.order
  let w := wvals2D rc.order ii * wvals2D rc.order jj
  let J := reconJ2D rc Xpts ii jj
  let dr := if r = 0 then reconD1 rc Xpts ii jj else reconD2 rc Xpts ii jj
  let Nar := evalEnrichmentFuncs2D_Na rc.order (rc.rknots 1) (rc.rknots 2)
    (rc.knots ii) (rc.knots jj) i
  let Nbr := evalEnrichmentFuncs2D_Nb rc.order (rc.rknots 1) (rc.rknots 2)
    (rc.knots ii) (rc.knots jj) i
  w * (dr.1 * (Nar * J 0 + Nbr * J 1)
     + dr.2.1 * (Nar * J 3 + Nbr * J 4)
     + dr.2.2 * (Nar * J 6 + Nbr * J 7))

/-- Source `computeElemRecon2D`: assemble, solve and reshape
`ubar[vars_per_node*i + j] = sol[neq*j + i]`. -/
def computeElemRecon2D (rc : Recon2DCtx) (Xpts uvals uderiv : ℕ → ℝ) : ℕ → ℝ :=
  fun idx =>
    rc.solver (reconA2D rc Xpts) (reconB2D rc Xpts uvals uderiv)
      (2*rc.order*rc.order*(idx % rc.vars_per_node) + idx / rc.vars_per_node)

/-- Context of `computeNodeDeriv2D`, mirroring `NodeDeriv3DCtx`. -/
structure NodeDeriv2DCtx where
  order : ℕ
  vars_per_node : ℕ
  nelems : ℕ
  knots : ℕ → ℝ
  iNa : ℝ → ℝ → ℕ → ℝ
  iNb : ℝ → ℝ → ℕ → ℝ
  jac3d : (ℕ → ℝ) → (ℕ → ℝ) × ℝ
  nodes : ℕ → ℕ → ℤ
  uelem : ℕ → ℕ → ℝ
  welem : ℕ → ℕ → ℝ
  Xpts : ℕ → ℕ → ℝ

/-- The Jacobian `J` at knot `(ii,jj)` of element `e` (2D shell variant). -/
def ndJ2D (c : NodeDeriv2DCtx) (e ii jj : ℕ) : ℕ → ℝ :=
  (c.jac3d (computeJacobianTrans2D_Xd (c.order*c.order) (c.Xpts e)
    (c.iNa (c.knots ii) (c.knots jj))
    (c.iNb (c.knots ii) (c.knots jj)))).1

/-- `Ud[2k+j]` at the knot: `Σ_i uelem[vars_per_node*i+k]·dN_j[i]`. -/
def ndUd2D (c : NodeDeriv2DCtx) (e ii jj k j : ℕ) : ℝ :=
  ∑ i ∈ Finset.range (c.order*c.order),
    c.uelem e (c.vars_per_node*i + k) *
      (if j = 0 then c.iNa (c.knots ii) (c.knots jj) i
       else c.iNb (c.knots ii) (c.knots jj) i)

/-- The physical-space gradient sample of `computeNodeDeriv2D` (component
`r`, before `1/w` scaling). -/
def gradSample2D (c : NodeDeriv2DCtx) (e ii jj k r : ℕ) : ℝ :=
  ndUd2D c e ii jj k 0 * ndJ2D c e ii jj (3*r)
  + ndUd2D c e ii jj k 1 * ndJ2D c e ii jj (3*r+1)

/-- The value `computeNodeDeriv2D` writes into `delem` for local node
`(ii,jj)`, variable `k`, component `r`. -/
def delem2D (c : NodeDeriv2DCtx) (e ii jj k r : ℕ) : ℝ :=
  if 0 ≤ c.nodes e (ii + jj*c.order)
  then (1/c.welem e (ii + jj*c.order)) * gradSample2D c e ii jj k r
  else 0

/-- The accumulated 2D derivative vector at independent node `n` (Vec
contract, as in `uderivAcc3D`). -/
def uderivAcc2D (c : NodeDeriv2DCtx) (n k r : ℕ) : ℝ :=
  ∑ e ∈ Finset.range c.nelems, ∑ jj ∈ Finset.range c.order,
    ∑ ii ∈ Finset.range c.order,
      if c.nodes e (ii + jj*c.order) = (n:ℤ) then delem2D c e ii jj k r else 0

/-- The weight vector built by `computeLocalWeights` after finalize-add on a
quad mesh: the count of (element, slot) pairs referencing node `n` through a
non-dependent slot (dependent slots contribute `welem[j] = 0`). -/
def localWeight2D (c : NodeDeriv2DCtx) (n : ℕ) : ℝ :=
  ∑ e ∈ Finset.range c.nelems, ∑ jj ∈ Finset.range c.order,
    ∑ ii ∈ Finset.range c.order,
      if c.nodes e (ii + jj*c.order) = (n:ℤ) then 1 else 0

/-- The 2D half of C4, mirroring `nodeDeriv3D_avg` for `computeNodeDeriv2D`. -/
theorem nodeDeriv2D_avg (c : NodeDeriv2DCtx) (n k r : ℕ)
    (hw : ∀ e jj ii, e < c.nelems → jj < c.order → ii < c.order →
      c.nodes e (ii + jj*c.order) = (n:ℤ) →
      c.welem e (ii + jj*c.order) = localWeight2D c n) :
    uderivAcc2D c n k r
      = (1/localWeight2D c n) *
        (∑ e ∈ Finset.range c.nelems, ∑ jj ∈ Finset.range c.order,
          ∑ ii ∈ Finset.range c.order,
            if c.nodes e (ii + jj*c.order) = (n:ℤ)
            then gradSample2D c e ii jj k r else 0)
    ∧ ∀ e ii jj, c.nodes e (ii + jj*c.order) < 0 →
        delem2D c e ii jj k r = 0 := by
  constructor
  · simp only [uderivAcc2D, Finset.mul_sum]
    refine Finset.sum_congr rfl fun e he => ?_
    refine Finset.sum_congr rfl fun jj hjj => ?_
    refine Finset.sum_congr rfl fun ii hii => ?_
    by_cases hn : c.nodes e (ii + jj*c.order) = (n:ℤ)
    · rw [if_pos hn, if_pos hn, delem2D, if_pos (by simp [hn]),
        hw e jj ii (Finset.mem_range.mp he) (Finset.mem_range.mp hjj)
          (Finset.mem_range.mp hii) hn]
    · rw [if_neg hn, if_neg hn, mul_zero]
  · intro e ii jj hneg
    rw [delem2D, if_neg (not_le.mpr hneg)]

/-- **C4.** After `computeNodeDeriv2D`/`computeNodeDeriv3D` completes, for
every node `n` with weight `w[n] > 0` the accumulated derivative at `n` is
`1/w[n]` times the sum, over the (element, slot) pairs referencing `n`, of
that element's physical-space gradient sample at `n` (each contribution was
scaled by `1/w[n]` before accumulation, `welem` being the distributed weight
vector built by `computeLocalWeights`); and every slot whose element-local
node index is negative (a dependent node) contributes exactly zero. Stated
for the quad (2D) and octree (3D) projectors together. -/
theorem C4_nodeDeriv_weighted_average
    (c2 : NodeDeriv2DCtx) (c3 : NodeDeriv3DCtx) (n2 k2 r2 n3 k3 r3 : ℕ)
    (hpos2 : 0 < localWeight2D c2 n2)
    (hw2 : ∀ e jj ii, e < c2.nelems → jj < c2.order → ii < c2.order →
      c2.nodes e (ii + jj*c2.order) = (n2:ℤ) →
      c2.welem e (ii + jj*c2.order) = localWeight2D c2 n2)
    (hpos3 : 0 < localWeight3D c3 n3)
    (hw3 : ∀ e kk jj ii, e < c3.nelems → kk < c3.order → jj < c3.order →
      ii < c3.order →
      c3.nodes e (localNodeIdx c3.order ii jj kk) = (n3:ℤ) →
      c3.welem e (localNodeIdx c3.order ii jj kk) = localWeight3D c3 n3) :
    (uderivAcc2D c2 n2 k2 r2
      = (1/localWeight2D c2 n2) *
        (∑ e ∈ Finset.range c2.nelems, ∑ jj ∈ Finset.range c2.order,
          ∑ ii ∈ Finset.range c2.order,
            if c2.nodes e (ii + jj*c2.order) = (n2:ℤ)
            then gradSample2D c2 e ii jj k2 r2 else 0)
     ∧ ∀ e ii jj, c2.nodes e (ii + jj*c2.order) < 0 →
        delem2D c2 e ii jj k2 r2 = 0)
    ∧ (uderivAcc3D c3 n3 k3 r3
      = (1/localWeight3D c3 n3) *
        (∑ e ∈ Finset.range c3.nelems, ∑ kk ∈ Finset.range c3.order,
          ∑ jj ∈ Finset.range c3.order, ∑ ii ∈ Finset.range c3.order,
            if c3.nodes e (localNodeIdx c3.order ii jj kk) = (n3:ℤ)
            then gradSample3D c3 e ii jj kk k3 r3 else 0)
     ∧ ∀ e ii jj kk, c3.nodes e (localNodeIdx c3.order ii jj kk) < 0 →
        delem3D c3 e ii jj kk k3 r3 = 0) :=
  ⟨nodeDeriv2D_avg c2 n2 k2 r2 hw2, nodeDeriv3D_avg c3 n3 k3 r3 hw3⟩

theorem ndUd2D_const_zero (c : NodeDeriv2DCtx) (cst : ℕ → ℝ)
    (ha : ∀ a b, ∑ i ∈ Finset.range (c.order*c.order), c.iNa a b i = 0)
    (hb : ∀ a b, ∑ i ∈ Finset.range (c.order*c.order), c.iNb a b i = 0)
    (hu : ∀ e m, c.uelem e m = cst (m % c.vars_per_node))
    (e ii jj k j : ℕ) : ndUd2D c e ii jj k j = 0 := by
  rw [ndUd2D]
  have h1 : ∀ i : ℕ, c.uelem e (c.vars_per_node*i + k) = cst (k % c.vars_per_node) := by
    intro i; rw [hu]; congr 1; exact Nat.mul_add_mod _ _ _
  have hdN : ∑ i ∈ Finset.range (c.order*c.order),
      (if j = 0 then c.iNa (c.knots ii) (c.knots jj) i
       else c.iNb (c.knots ii) (c.knots jj) i) = 0 := by
    by_cases hj : j = 0 <;> simp [hj, ha, hb]
  calc ∑ i ∈ Finset.range (c.order*c.order),
        c.uelem e (c.vars_per_node*i + k) *
          (if j = 0 then c.iNa (c.knots ii) (c.knots jj) i
           else c.iNb (c.knots ii) (c.knots jj) i)
      = ∑ i ∈ Finset.range (c.order*c.order),
        cst (k % c.vars_per_node) *
          (if j = 0 then c.iNa (c.knots ii) (c.knots jj) i
           else c.iNb (c.knots ii) (c.knots jj) i) :=
        Finset.sum_congr rfl fun i _ => by rw [h1]
    _ = 0 := by rw [← Finset.mul_sum, hdN, mul_zero]

theorem ndUd3D_const_zero (c : NodeDeriv3DCtx) (cst : ℕ → ℝ)
    (ha : ∀ a b c', ∑ i ∈ Finset.range (c.order*c.order*c.order), c.iNa a b c' i = 0)
    (hb : ∀ a b c', ∑ i ∈ Finset.range (c.order*c.order*c.order), c.iNb a b c' i = 0)
    (hc : ∀ a b c', ∑ i ∈ Finset.range (c.order*c.order*c.order), c.iNc a b c' i = 0)
    (hu : ∀ e m, c.uelem e m = cst (m % c.vars_per_node))
    (e ii jj kk k j : ℕ) : ndUd3D c e ii jj kk k j = 0 := by
  rw [ndUd3D]
  have h1 : ∀ i : ℕ, c.uelem e (c.vars_per_node*i + k) = cst (k % c.vars_per_node) := by
    intro i; rw [hu]; congr 1; exact Nat.mul_add_mod _ _ _
  have hdN : ∑ i ∈ Finset.range (c.order*c.order*c.order),
      (if j = 0 then c.iNa (c.knots ii) (c.knots jj) (c.knots kk) i
       else if j = 1 then c.iNb (c.knots ii) (c.knots jj) (c.knots kk) i
       else c.iNc (c.knots ii) (c.knots jj) (c.knots kk) i) = 0 := by
    by_cases hj : j = 0
    · simp [hj, ha]
    · by_cases hj1 : j = 1 <;> simp [hj, hj1, hb, hc]
  calc ∑ i ∈ Finset.range (c.order*c.order*c.order),
        c.uelem e (c.vars_per_node*i + k) *
          (if j = 0 then c.iNa (c.knots ii) (c.knots jj) (c.knots kk) i
           else if j = 1 then c.iNb (c.knots ii) (c.knots jj) (c.knots kk) i
           else c.iNc (c.knots ii) (c.knots jj) (c.knots kk) i)
      = ∑ i ∈ Finset.range (c.order*c.order*c.order),
        cst (k % c.vars_per_node) *
          (if j = 0 then c.iNa (c.knots ii) (c.knots jj) (c.knots kk) i
           else if j = 1 then c.iNb (c.knots ii) (c.knots jj) (c.knots kk) i
           else c.iNc (c.knots ii) (c.knots jj) (c.knots kk) i) :=
        Finset.sum_congr rfl fun i _ => by rw [h1]
    _ = 0 := by rw [← Finset.mul_sum, hdN, mul_zero]

theorem reconUd2D_const_zero (rc : Recon2DCtx) (uvals : ℕ → ℝ) (cst : ℕ → ℝ)
    (ha : ∀ a b, ∑ i ∈ Finset.range (rc.order*rc.order), rc.cNa a b i = 0)
    (hb : ∀ a b, ∑ i ∈ Finset.range (rc.order*rc.order), rc.cNb a b i = 0)
    (hu : ∀ m, uvals m = cst (m % rc.vars_per_node))
    (ii jj k j : ℕ) : reconUd2D rc uvals ii jj k j = 0 := by
  rw [reconUd2D]
  have h1 : ∀ i : ℕ, uvals (rc.vars_per_node*i + k) = cst (k % rc.vars_per_node) := by
    intro i; rw [hu]; congr 1; exact Nat.mul_add_mod _ _ _
  have hdN : ∑ i ∈ Finset.range (rc.order*rc.order),
      (if j = 0 then rc.cNa (rc.knots ii) (rc.knots jj) i
       else rc.cNb (rc.knots ii) (rc.knots jj) i) = 0 := by
    by_cases hj : j = 0 <;> simp [hj, ha, hb]
  calc ∑ i ∈ Finset.range (rc.order*rc.order),
        uvals (rc.vars_per_node*i + k) *
          (if j = 0 then rc.cNa (rc.knots ii) (rc.knots jj) i
           else rc.cNb (rc.knots ii) (rc.knots jj) i)
      = ∑ i ∈ Finset.range (rc.order*rc.order),
        cst (k % rc.vars_per_node) *
          (if j = 0 then rc.cNa (rc.knots ii) (rc.knots jj) i
           else rc.cNb (rc.knots ii) (rc.knots jj) i) :=
        Finset.sum_congr rfl fun i _ => by rw [h1]
    _ = 0 := by rw [← Finset.mul_sum, hdN, mul_zero]

theorem reconUd3D_const_zero (rc : Recon3DCtx) (uvals : ℕ → ℝ) (cst : ℕ → ℝ)
    (ha : ∀ a b c', ∑ i ∈ Finset.range (rc.order*rc.order*rc.order), rc.cNa a b c' i = 0)
    (hb : ∀ a b c', ∑ i ∈ Finset.range (rc.order*rc.order*rc.order), rc.cNb a b c' i = 0)
    (hc : ∀ a b c', ∑ i ∈ Finset.range (rc.order*rc.order*rc.order), rc.cNc a b c' i = 0)
    (hu : ∀ m, uvals m = cst (m % rc.vars_per_node))
    (ii jj kk k j : ℕ) : reconUd3D rc uvals ii jj kk k j = 0 := by
  rw [reconUd3D]
  have h1 : ∀ i : ℕ, uvals (rc.vars_per_node*i + k) = cst (k % rc.vars_per_node) := by
    intro i; rw [hu]; congr 1; exact Nat.mul_add_mod _ _ _
  have hdN : ∑ i ∈ Finset.range (rc.order*rc.order*rc.order),
      (if j = 0 then rc.cNa (rc.knots ii) (rc.knots jj) (rc.knots kk) i
       else if j = 1 then rc.cNb (rc.knots ii) (rc.knots jj) (rc.knots kk) i
       else rc.cNc (rc.knots ii) (rc.knots jj) (rc.knots kk) i) = 0 := by
    by_cases hj : j = 0
    · simp [hj, ha]
    · by_cases hj1 : j = 1 <;> simp [hj, hj1, hb, hc]
  calc ∑ i ∈ Finset.range (rc.order*rc.order*rc.order),
        uvals (rc.vars_per_node*i + k) *
          (if j = 0 then rc.cNa (rc.knots ii) (rc.knots jj) (rc.knots kk) i
           else if j = 1 then rc.cNb (rc.knots ii) (rc.knots jj) (rc.knots kk) i
           else rc.cNc (rc.knots ii) (rc.knots jj) (rc.knots kk) i) = 0 := by
        rw [show (fun i => uvals (rc.vars_per_node*i + k) *
          (if j = 0 then rc.cNa (rc.knots ii) (rc.knots jj) (rc.knots kk) i
           else if j = 1 then rc.cNb (rc.knots ii) (rc.knots jj) (rc.knots kk) i
           else rc.cNc (rc.knots ii) (rc.knots jj) (rc.knots kk) i)) = fun i =>
          cst (k % rc.vars_per_node) *
          (if j = 0 then rc.cNa (rc.knots ii) (rc.knots jj) (rc.knots kk) i
           else if j = 1 then rc.cNb (rc.knots ii) (rc.knots jj) (rc.knots kk) i
           else rc.cNc (rc.knots ii) (rc.knots jj) (rc.knots kk) i) from funext fun i => by rw [h1]]
        rw [← Finset.mul_sum, hdN, mul_zero]

/-- C3: for a constant nodal field (each variable constant at every node and
every element), the nodal derivatives produced by the projector
(`computeNodeDeriv2D/3D`) are zero at every independent node, and the
enrichment coefficients returned by `computeElemRecon2D/3D` are the zero
matrix -- the least-squares right-hand side vanishes, so the minimum-norm
solution is zero -- under the hypothesis that the Lagrange basis derivatives
returned by `evalInterp` sum to zero at every point (and, for the
reconstruction, that the external SVD solver returns the minimum-norm
solution, which is zero for a zero right-hand side). -/
theorem C3_constant_field_zero :
    (∀ (c : NodeDeriv2DCtx) (cst : ℕ → ℝ),
      (∀ a b, ∑ i ∈ Finset.range (c.order*c.order), c.iNa a b i = 0) →
      (∀ a b, ∑ i ∈ Finset.range (c.order*c.order), c.iNb a b i = 0) →
      (∀ e m, c.uelem e m = cst (m % c.vars_per_node)) →
      ∀ n k r, uderivAcc2D c n k r = 0)
    ∧ (∀ (c : NodeDeriv3DCtx) (cst : ℕ → ℝ),
      (∀ a b c', ∑ i ∈ Finset.range (c.order*c.order*c.order), c.iNa a b c' i = 0) →
      (∀ a b c', ∑ i ∈ Finset.range (c.order*c.order*c.order), c.iNb a b c' i = 0) →
      (∀ a b c', ∑ i ∈ Finset.range (c.order*c.order*c.order), c.iNc a b c' i = 0) →
      (∀ e m, c.uelem e m = cst (m % c.vars_per_node)) →
      ∀ n k r, uderivAcc3D c n k r = 0)
    ∧ (∀ (rc : Recon2DCtx) (Xpts uvals uderiv cst : ℕ → ℝ),
      (∀ a b, ∑ i ∈ Finset.range (rc.order*rc.order), rc.cNa a b i = 0) →
      (∀ a b, ∑ i ∈ Finset.range (rc.order*rc.order), rc.cNb a b i = 0) →
      (∀ m, uvals m = cst (m % rc.vars_per_node)) →
      (∀ m, uderiv m = 0) →
      (∀ A, rc.solver A (fun _ => 0) = fun _ => 0) →
      ∀ idx, computeElemRecon2D rc Xpts uvals uderiv idx = 0)
    ∧ (∀ (rc : Recon3DCtx) (Xpts uvals uderiv cst : ℕ → ℝ),
      (∀ a b c', ∑ i ∈ Finset.range (rc.order*rc.order*rc.order), rc.cNa a b c' i = 0) →
      (∀ a b c', ∑ i ∈ Finset.range (rc.order*rc.order*rc.order), rc.cNb a b c' i = 0) →
      (∀ a b c', ∑ i ∈ Finset.range (rc.order*rc.order*rc.order), rc.cNc a b c' i = 0) →
      (∀ m, uvals m = cst (m % rc.vars_per_node)) →
      (∀ m, uderiv m = 0) →
      (∀ A, rc.solver A (fun _ => 0) = fun _ => 0) →
      ∀ idx, computeElemRecon3D rc Xpts uvals uderiv idx = 0) := by
  refine ⟨?_, ?_, ?_, ?_⟩
  · intro c cst ha hb hu n k r
    have hU := ndUd2D_const_zero c cst ha hb hu
    have hg : ∀ e ii jj, gradSample2D c e ii jj k r = 0 := by
      intro e ii jj; rw [gradSample2D, hU, hU]; ring
    have hd : ∀ e ii jj, delem2D c e ii jj k r = 0 := by
      intro e ii jj; rw [delem2D, hg]
      split <;> simp
    simp [uderivAcc2D, hd]
  · intro c cst ha hb hc hu n k r
    have hU := ndUd3D_const_zero c cst ha hb hc hu
    have hg : ∀ e ii jj kk, gradSample3D c e ii jj kk k r = 0 := by
      intro e ii jj kk; rw [gradSample3D, hU, hU, hU]; ring
    have hd : ∀ e ii jj kk, delem3D c e ii jj kk k r = 0 := by
      intro e ii jj kk; rw [delem3D, hg]
      split <;> simp
    simp [uderivAcc3D, hd]
  · intro rc Xpts uvals uderiv cst ha hb hu hd hs idx
    have hU := reconUd2D_const_zero rc uvals cst ha hb hu
    have hb0 : reconB2D rc Xpts uvals uderiv = fun _ => 0 := by
      funext m
      simp [reconB2D, reconDvec2D, hU, hd]
    rw [computeElemRecon2D, hb0, hs]
  · intro rc Xpts uvals uderiv cst ha hb hc hu hd hs idx
    have hU := reconUd3D_const_zero rc uvals cst ha hb hc hu
    have hb0 : reconB3D rc Xpts uvals uderiv = fun _ => 0 := by
      funext m
      simp [reconB3D, hU, hd]
    rw [computeElemRecon3D, hb0, hs]

/-- Concrete 2D projector context for the C3/C4 witnesses: one element, one
node, trivial basis. -/
def wCtx2D : NodeDeriv2DCtx where
  order := 1
  vars_per_node := 1
  nelems := 1
  knots := fun _ => 0
  iNa := fun _ _ _ => 0
  iNb := fun _ _ _ => 0
  jac3d := fun _ => (fun _ => 0, 0)
  nodes := fun _ _ => 0
  uelem := fun _ _ => 0
  welem := fun _ _ => 1
  Xpts := fun _ _ => 0

/-- Concrete 3D projector context for the C3/C4 witnesses. -/
def wCtx3D : NodeDeriv3DCtx where
  order := 1
  vars_per_node := 1
  nelems := 1
  knots := fun _ => 0
  iNa := fun _ _ _ _ => 0
  iNb := fun _ _ _ _ => 0
  iNc := fun _ _ _ _ => 0
  jac3d := fun _ => (fun _ => 0, 0)
  nodes := fun _ _ => 0
  uelem := fun _ _ => 0
  welem := fun _ _ => 1
  Xpts := fun _ _ => 0

/-- Concrete 2D reconstruction context for the C3 witness. -/
def wRecon2D : Recon2DCtx where
  order := 1
  refined_order := 1
  vars_per_node := 1
  knots := fun _ => 0
  rknots := fun _ => 0
  cNa := fun _ _ _ => 0
  cNb := fun _ _ _ => 0
  rNa := fun _ _ _ => 0
  rNb := fun _ _ _ => 0
  jac3d := fun _ => (fun _ => 0, 0)
  solver := fun _ _ => fun _ => 0

/-- Concrete 3D reconstruction context for the C3 witness. -/
def wRecon3D : Recon3DCtx where
  order := 1
  refined_order := 1
  vars_per_node := 1
  knots := fun _ => 0
  cNa := fun _ _ _ _ => 0
  cNb := fun _ _ _ _ => 0
  cNc := fun _ _ _ _ => 0
  rNa := fun _ _ _ _ => 0
  rNb := fun _ _ _ _ => 0
  rNc := fun _ _ _ _ => 0
  jac3d := fun _ => (fun _ => 0, 0)
  solver := fun _ _ => fun _ => 0

/-- Witness for C3 at the concrete contexts above. -/
theorem C3_witness :
    uderivAcc2D wCtx2D 0 0 0 = 0 ∧ uderivAcc3D wCtx3D 0 0 0 = 0 ∧
      computeElemRecon2D wRecon2D (fun _ => 0) (fun _ => 0) (fun _ => 0) 0 = 0 ∧
      computeElemRecon3D wRecon3D (fun _ => 0) (fun _ => 0) (fun _ => 0) 0 = 0 :=
  ⟨C3_constant_field_zero.1 wCtx2D (fun _ => 0) (by simp [wCtx2D]) (by simp [wCtx2D])
      (by simp [wCtx2D]) 0 0 0,
   C3_constant_field_zero.2.1 wCtx3D (fun _ => 0) (by simp [wCtx3D]) (by simp [wCtx3D])
      (by simp [wCtx3D]) (by simp [wCtx3D]) 0 0 0,
   C3_constant_field_zero.2.2.1 wRecon2D (fun _ => 0) (fun _ => 0) (fun _ => 0) (fun _ => 0)
      (by simp [wRecon2D]) (by simp [wRecon2D]) (by simp) (by simp) (by simp [wRecon2D]) 0,
   C3_constant_field_zero.2.2.2 wRecon3D (fun _ => 0) (fun _ => 0) (fun _ => 0) (fun _ => 0)
      (by simp [wRecon3D]) (by simp [wRecon3D]) (by simp [wRecon3D]) (by simp) (by simp)
      (by simp [wRecon3D]) 0⟩

/-- Witness for C4 at the concrete 2D and 3D projector contexts. -/
theorem C4_witness :
    (uderivAcc2D wCtx2D 0 0 0
      = (1/localWeight2D wCtx2D 0) *
        (∑ e ∈ Finset.range wCtx2D.nelems, ∑ jj ∈ Finset.range wCtx2D.order,
          ∑ ii ∈ Finset.range wCtx2D.order,
            if wCtx2D.nodes e (ii + jj*wCtx2D.order) = ((0:ℕ):ℤ)
            then gradSample2D wCtx2D e ii jj 0 0 else 0)
     ∧ ∀ e ii jj, wCtx2D.nodes e (ii + jj*wCtx2D.order) < 0 →
        delem2D wCtx2D e ii jj 0 0 = 0)
    ∧ (uderivAcc3D wCtx3D 0 0 0
      = (1/localWeight3D wCtx3D 0) *
        (∑ e ∈ Finset.range wCtx3D.nelems, ∑ kk ∈ Finset.range wCtx3D.order,
          ∑ jj ∈ Finset.range wCtx3D.order, ∑ ii ∈ Finset.range wCtx3D.order,
            if wCtx3D.nodes e (localNodeIdx wCtx3D.order ii jj kk) = ((0:ℕ):ℤ)
            then gradSample3D wCtx3D e ii jj kk 0 0 else 0)
     ∧ ∀ e ii jj kk, wCtx3D.nodes e (localNodeIdx wCtx3D.order ii jj kk) < 0 →
        delem3D wCtx3D e ii jj kk 0 0 = 0) :=
  C4_nodeDeriv_weighted_average wCtx2D wCtx3D 0 0 0 0 0 0
    (by norm_num [localWeight2D, wCtx2D])
    (fun e jj ii _ _ _ _ => by simp [localWeight2D, wCtx2D])
    (by norm_num [localWeight3D, wCtx3D])
    (fun e kk jj ii _ _ _ _ _ => by simp [localWeight3D, wCtx3D])

/-! ## Strain-energy error estimator (source `TMR_StrainEnergyErrorEst`,
quad version, lines 2774-2925; claim C6) -/

/-- Source `getNum2dEnrich`. -/
def getNum2dEnrich (order : ℕ) : ℕ :=
  if order = 2 then 5 else if order = 3 then 7 else 9

/-- Source `getNum3dEnrich`. -/
def getNum3dEnrich (order : ℕ) : ℕ :=
  if order = 2 then 9 else 15

/-- Context of the quad strain-energy estimator: the reconstruction
collaborators plus, per element, the read-backs `vars_elem` (the element's
state), `delem` (the projector output `uderiv->getValues`), the refined node
locations and the element's `computeEnergies` potential energy
`Pe(Xpts, vars, dvars)`. -/
structure SEECtx where
  rc : Recon2DCtx
  nelems : ℕ
  varsElem : ℕ → ℕ → ℝ
  delem : ℕ → ℕ → ℝ
  XptsR : ℕ → ℕ → ℝ
  Pe : ℕ → (ℕ → ℝ) → (ℕ → ℝ) → (ℕ → ℝ) → ℝ

/-- The enrichment coefficients of element `i` (C4 on the element data). -/
def seeUbar (s : SEECtx) (i : ℕ) : ℕ → ℝ :=
  computeElemRecon2D s.rc (s.XptsR i) (s.varsElem i) (s.delem i)

/-- The `vars_interp` buffer of the estimator: at refined knot `(n,m)`,
variable `kk` (flat slot `vars_per_node*(n + m*refined_order) + kk`), the sum
of the enrichment contributions `ubar[vars_per_node*k + kk]·Nr[k]` -- the
reconstruction delta, which is what the quad estimator hands to
`computeEnergies`. -/
def seeVarsInterp (s : SEECtx) (i : ℕ) : ℕ → ℝ := fun idx =>
  let v := s.rc.vars_per_node
  let ro := s.rc.refined_order
  let kk := idx % v
  let n := idx / v % ro
  let m := idx / v / ro
  ∑ k ∈ Finset.range (getNum2dEnrich s.rc.order),
    seeUbar s i (v*k + kk) *
      evalEnrichmentFuncs2D_N s.rc.order (s.rc.rknots 1) (s.rc.rknots 2)
        (s.rc.rknots n) (s.rc.rknots m) k

/-- The element error indicator: `error[i] = fabs(Pe)` with `Pe` evaluated on
the refined node locations, the reconstructed field and a zeroed `dvars`. -/
def seeError (s : SEECtx) (i : ℕ) : ℝ :=
  |s.Pe i (s.XptsR i) (seeVarsInterp s i) (fun _ => 0)|

/-- The per-process accumulation loop `SE_total_error += error[i]`. -/
def seeLocalTotal (s : SEECtx) : ℝ :=
  (List.range s.nelems).foldl (fun acc i => acc + seeError s i) 0

/-- Source `TMR_StrainEnergyErrorEst` (quad): per-process loop followed by
`MPI_Allreduce(..., MPI_SUM, ...)`, modelled as the sum over the process
ranks of the per-process totals. -/
def TMR_StrainEnergyErrorEst (np : ℕ) (comm : ℕ → SEECtx) : ℝ :=
  (List.range np).foldl (fun acc p => acc + seeLocalTotal (comm p)) 0

/-- Claim-side field: the C4 reconstruction evaluated pointwise at refined
knot `(n,m)`, variable `kk`. -/
def c4ReconField2D (rc : Recon2DCtx) (ubar : ℕ → ℝ) (n m kk : ℕ) : ℝ :=
  ∑ k ∈ Finset.range (getNum2dEnrich rc.order),
    ubar (rc.vars_per_node*k + kk) *
      evalEnrichmentFuncs2D_N rc.order (rc.rknots 1) (rc.rknots 2)
        (rc.rknots n) (rc.rknots m) k

/-- C6: each element's error indicator is the absolute value of the potential
energy returned by `computeEnergies` evaluated on the field reconstructed at
the refined-mesh knots (the C4 reconstruction evaluated pointwise, with
zeroed velocities), and the returned global error is the MPI sum over all
processes of the sum of the element indicators. -/
theorem C6_strain_energy_error_est (np : ℕ) (comm : ℕ → SEECtx) :
    (∀ p i, seeError (comm p) i
        = |(comm p).Pe i ((comm p).XptsR i) (seeVarsInterp (comm p) i) (fun _ => 0)|)
    ∧ (∀ p i n m kk, n < (comm p).rc.refined_order → m < (comm p).rc.refined_order →
        kk < (comm p).rc.vars_per_node →
        seeVarsInterp (comm p) i
            ((comm p).rc.vars_per_node*(n + m*(comm p).rc.refined_order) + kk)
          = c4ReconField2D (comm p).rc (seeUbar (comm p) i) n m kk)
    ∧ TMR_StrainEnergyErrorEst np comm
        = ∑ p ∈ Finset.range np, ∑ i ∈ Finset.range (comm p).nelems,
            seeError (comm p) i := by
  refine ⟨fun p i => rfl, ?_, ?_⟩
  · intro p i n m kk hn hm hkk
    have hv : 0 < (comm p).rc.vars_per_node := lt_of_le_of_lt (Nat.zero_le _) hkk
    have hro : 0 < (comm p).rc.refined_order := lt_of_le_of_lt (Nat.zero_le _) hm
    have e1 : ((comm p).rc.vars_per_node*(n + m*(comm p).rc.refined_order) + kk)
        % (comm p).rc.vars_per_node = kk := by
      rw [Nat.mul_add_mod]; exact Nat.mod_eq_of_lt hkk
    have e2 : ((comm p).rc.vars_per_node*(n + m*(comm p).rc.refined_order) + kk)
        / (comm p).rc.vars_per_node = n + m*(comm p).rc.refined_order := by
      rw [Nat.mul_add_div hv, Nat.div_eq_of_lt hkk, add_zero]
    have e3 : (n + m*(comm p).rc.refined_order) % (comm p).rc.refined_order = n := by
      rw [Nat.add_mul_mod_self_right]; exact Nat.mod_eq_of_lt hn
    have e4 : (n + m*(comm p).rc.refined_order) / (comm p).rc.refined_order = m := by
      rw [Nat.add_mul_div_right _ _ hro, Nat.div_eq_of_lt hn, zero_add]
    simp only [seeVarsInterp, c4ReconField2D, e1, e2, e3, e4]
  · simp only [TMR_StrainEnergyErrorEst, seeLocalTotal, foldl_add_range, zero_add]

/-- Concrete estimator context for the C6 witness. -/
def wSEE : SEECtx where
  rc := wRecon2D
  nelems := 1
  varsElem := fun _ _ => 0
  delem := fun _ _ => 0
  XptsR := fun _ _ => 0
  Pe := fun _ _ _ _ => 1

/-- Witness for C6 at the concrete context (one process, one element). -/
theorem C6_witness :
    seeVarsInterp wSEE 0 (wSEE.rc.vars_per_node*(0 + 0*wSEE.rc.refined_order) + 0)
        = c4ReconField2D wSEE.rc (seeUbar wSEE 0) 0 0 0
    ∧ TMR_StrainEnergyErrorEst 1 (fun _ => wSEE)
        = ∑ p ∈ Finset.range 1, ∑ i ∈ Finset.range wSEE.nelems, seeError wSEE i :=
  ⟨(C6_strain_energy_error_est 1 (fun _ => wSEE)).2.1 0 0 0 0 0
      (by norm_num [wSEE, wRecon2D]) (by norm_num [wSEE, wRecon2D])
      (by norm_num [wSEE, wRecon2D]),
   (C6_strain_energy_error_est 1 (fun _ => wSEE)).2.2⟩

/-! ## Adjoint-weighted residual error estimator (source
`TMR_AdjointErrorEst`, quad lines 3203-3355 and oct lines 3375-3532;
claim C7) -/

/-- The C loop `for (j = 0; j < ord; j += ord-1)`, with fuel (the loop body
is executed for the produced indices in order). -/
def cornerLoopGo (ord : ℕ) : ℕ → ℕ → List ℕ
  | _, 0 => []
  | j, fuel+1 => if j < ord then j :: cornerLoopGo ord (j + (ord - 1)) fuel else []

/-- The indices visited by the corner loop. -/
def cornerIdxs (ord : ℕ) : List ℕ := cornerLoopGo ord 0 (ord + 1)

/-- For `ord ≥ 2` the corner loop visits exactly `0` and `ord-1`. -/
theorem cornerIdxs_eq (ord : ℕ) (h : 2 ≤ ord) : cornerIdxs ord = [0, ord - 1] := by
  obtain ⟨n, rfl⟩ : ∃ n, ord = n + 2 := ⟨ord - 2, by omega⟩
  show cornerLoopGo (n+2) 0 (n+3) = [0, n+1]
  rw [show n+3 = (n+2)+1 from rfl, cornerLoopGo, if_pos (by omega)]
  rw [show 0 + (n+2-1) = n+1 by omega, show n+2 = (n+1)+1 from rfl, cornerLoopGo,
    if_pos (by omega)]
  rw [show n+1 + (n+2-1) = 2*n+2 by omega, cornerLoopGo, if_neg (by omega)]

/-- Per-process data of the quad adjoint estimator: the refined element-node
numbers and the error deposits made by `addLocalizedError` (element plus its
auxiliary traction elements) into the per-element `err` buffer. -/
structure AdjCtx2D where
  refined_order : ℕ
  nelems : ℕ
  refineNodes : ℕ → ℕ → ℕ
  dep : ℕ → ℕ → ℝ

/-- Per-process data of the oct adjoint estimator. -/
structure AdjCtx3D where
  refined_order : ℕ
  nelems : ℕ
  refineNodes : ℕ → ℕ → ℕ
  dep : ℕ → ℕ → ℝ

/-- The nodal error vector after `setValues(ADD)` over all elements of all
processes, finalize-add and distribute (Vec contract). -/
def nodalError2D (np : ℕ) (comm : ℕ → AdjCtx2D) (n : ℕ) : ℝ :=
  ∑ p ∈ Finset.range np, ∑ e ∈ Finset.range (comm p).nelems,
    ∑ s ∈ Finset.range ((comm p).refined_order*(comm p).refined_order),
      if (comm p).refineNodes e s = n then (comm p).dep e s else 0

/-- The 3D nodal error vector. -/
def nodalError3D (np : ℕ) (comm : ℕ → AdjCtx3D) (n : ℕ) : ℝ :=
  ∑ p ∈ Finset.range np, ∑ e ∈ Finset.range (comm p).nelems,
    ∑ s ∈ Finset.range
        ((comm p).refined_order*(comm p).refined_order*(comm p).refined_order),
      if (comm p).refineNodes e s = n then (comm p).dep e s else 0

/-- Quad element error indicator (source lines 3324-3330): the corner loops
`for (j = 0; j < ro; j += ro-1) for (i = 0; i < ro; i += ro-1)` accumulate
the read-back nodal error at `err[i + j*ro]`, then `0.25*fabs(...)`. -/
def adjErrorInd2D (np : ℕ) (comm : ℕ → AdjCtx2D) (p e : ℕ) : ℝ :=
  0.25*|(cornerIdxs (comm p).refined_order).foldl (fun acc j =>
    (cornerIdxs (comm p).refined_order).foldl (fun acc i =>
      acc + nodalError2D np comm
        ((comm p).refineNodes e (i + j*(comm p).refined_order))) acc) 0|

/-- Oct element error indicator (source lines 3495-3507): loops `k,j,i` over
`{0,1}` accumulate `err[(ro-1)*i + (ro-1)*j*ro + (ro-1)*k*ro*ro]`, then
`0.125*fabs(...)`. -/
def adjErrorInd3D (np : ℕ) (comm : ℕ → AdjCtx3D) (p e : ℕ) : ℝ :=
  0.125*|(List.range 2).foldl (fun acc k => (List.range 2).foldl (fun acc j =>
    (List.range 2).foldl (fun acc i =>
      acc + nodalError3D np comm ((comm p).refineNodes e
        (((comm p).refined_order-1)*i + ((comm p).refined_order-1)*j*(comm p).refined_order
          + ((comm p).refined_order-1)*k*(comm p).refined_order*(comm p).refined_order)))
      acc) acc) 0|

/-- The returned total error: per-process element loop, then allreduce-sum. -/
def adjTotalError2D (np : ℕ) (comm : ℕ → AdjCtx2D) : ℝ :=
  (List.range np).foldl (fun acc p =>
    acc + (List.range (comm p).nelems).foldl
      (fun acc e => acc + adjErrorInd2D np comm p e) 0) 0

/-- The returned adjoint correction: per-process running sum of every
deposited `errbuf` value, then allreduce-sum. -/
def adjTotalCorr2D (np : ℕ) (comm : ℕ → AdjCtx2D) : ℝ :=
  (List.range np).foldl (fun acc p =>
    acc + (List.range (comm p).nelems).foldl (fun acc e =>
      (List.range ((comm p).refined_order*(comm p).refined_order)).foldl
        (fun acc s => acc + (comm p).dep e s) acc) 0) 0

/-- The returned 3D total error. -/
def adjTotalError3D (np : ℕ) (comm : ℕ → AdjCtx3D) : ℝ :=
  (List.range np).foldl (fun acc p =>
    acc + (List.range (comm p).nelems).foldl
      (fun acc e => acc + adjErrorInd3D np comm p e) 0) 0

/-- The returned 3D adjoint correction. -/
def adjTotalCorr3D (np : ℕ) (comm : ℕ → AdjCtx3D) : ℝ :=
  (List.range np).foldl (fun acc p =>
    acc + (List.range (comm p).nelems).foldl (fun acc e =>
      (List.range ((comm p).refined_order*(comm p).refined_order
          *(comm p).refined_order)).foldl
        (fun acc s => acc + (comm p).dep e s) acc) 0) 0

theorem foldl_corner_sum (r1 : ℕ) (g : ℕ → ℕ → ℝ) (hne : (0:ℕ) ≠ r1) :
    ([0, r1].foldl (fun acc j => [0, r1].foldl (fun acc i => acc + g i j) acc) 0)
      = ∑ j ∈ ({0, r1} : Finset ℕ), ∑ i ∈ ({0, r1} : Finset ℕ), g i j := by
  rw [Finset.sum_pair hne, Finset.sum_pair hne, Finset.sum_pair hne]
  simp only [List.foldl_cons, List.foldl_nil]
  ring

theorem foldl_range2_cube (g : ℕ → ℕ → ℕ → ℝ) :
    (List.range 2).foldl (fun acc k => (List.range 2).foldl (fun acc j =>
      (List.range 2).foldl (fun acc i => acc + g i j k) acc) acc) 0
      = g 0 0 0 + g 1 0 0 + g 0 1 0 + g 1 1 0
        + g 0 0 1 + g 1 0 1 + g 0 1 1 + g 1 1 1 := by
  rw [show List.range 2 = [0, 1] from rfl]
  simp only [List.foldl_cons, List.foldl_nil]
  ring

theorem sum_pair_cube (r1 : ℕ) (hne : (0:ℕ) ≠ r1) (g : ℕ → ℕ → ℕ → ℝ) :
    (∑ k ∈ ({0, r1} : Finset ℕ), ∑ j ∈ ({0, r1} : Finset ℕ),
        ∑ i ∈ ({0, r1} : Finset ℕ), g i j k)
      = g 0 0 0 + g r1 0 0 + g 0 r1 0 + g r1 r1 0
        + g 0 0 r1 + g r1 0 r1 + g 0 r1 r1 + g r1 r1 r1 := by
  rw [Finset.sum_pair hne]
  rw [Finset.sum_pair hne, Finset.sum_pair hne, Finset.sum_pair hne,
    Finset.sum_pair hne, Finset.sum_pair hne, Finset.sum_pair hne]
  ring

/-- C7: after the nodal error vector is finalize-added and distributed, each
element's indicator is `corner_weight·|Σ nodal error at the element's corner
nodes|` -- the corners being the refined-element nodes at tensor-product
indices `0` and `refined_order-1` along each axis, with weight `1/4` in 2D
and `1/8` in 3D; the returned total error is the MPI sum of the element
indicators and the returned correction is the MPI sum of all deposited
`errbuf` values. -/
theorem C7_adjoint_error_est (np2 : ℕ) (comm2 : ℕ → AdjCtx2D)
    (np3 : ℕ) (comm3 : ℕ → AdjCtx3D) :
    (∀ p e, 2 ≤ (comm2 p).refined_order →
      adjErrorInd2D np2 comm2 p e
        = 0.25*|∑ j ∈ ({0, (comm2 p).refined_order - 1} : Finset ℕ),
            ∑ i ∈ ({0, (comm2 p).refined_order - 1} : Finset ℕ),
              nodalError2D np2 comm2
                ((comm2 p).refineNodes e (i + j*(comm2 p).refined_order))|)
    ∧ adjTotalError2D np2 comm2
        = ∑ p ∈ Finset.range np2, ∑ e ∈ Finset.range (comm2 p).nelems,
            adjErrorInd2D np2 comm2 p e
    ∧ adjTotalCorr2D np2 comm2
        = ∑ p ∈ Finset.range np2, ∑ e ∈ Finset.range (comm2 p).nelems,
            ∑ s ∈ Finset.range ((comm2 p).refined_order*(comm2 p).refined_order),
              (comm2 p).dep e s
    ∧ (∀ p e, 2 ≤ (comm3 p).refined_order →
      adjErrorInd3D np3 comm3 p e
        = 0.125*|∑ k ∈ ({0, (comm3 p).refined_order - 1} : Finset ℕ),
            ∑ j ∈ ({0, (comm3 p).refined_order - 1} : Finset ℕ),
            ∑ i ∈ ({0, (comm3 p).refined_order - 1} : Finset ℕ),
              nodalError3D np3 comm3 ((comm3 p).refineNodes e
                (i + j*(comm3 p).refined_order
                  + k*(comm3 p).refined_order*(comm3 p).refined_order))|)
    ∧ adjTotalError3D np3 comm3
        = ∑ p ∈ Finset.range np3, ∑ e ∈ Finset.range (comm3 p).nelems,
            adjErrorInd3D np3 comm3 p e
    ∧ adjTotalCorr3D np3 comm3
        = ∑ p ∈ Finset.range np3, ∑ e ∈ Finset.range (comm3 p).nelems,
            ∑ s ∈ Finset.range ((comm3 p).refined_order*(comm3 p).refined_order
                *(comm3 p).refined_order),
              (comm3 p).dep e s := by
  refine ⟨?_, ?_, ?_, ?_, ?_, ?_⟩
  · intro p e h
    have hne : (0:ℕ) ≠ (comm2 p).refined_order - 1 := by omega
    rw [adjErrorInd2D, cornerIdxs_eq _ h, foldl_corner_sum _ _ hne]
  · simp only [adjTotalError2D, foldl_add_range, zero_add]
  · simp only [adjTotalCorr2D, foldl_add_range, zero_add]
  · intro p e h
    have hne : (0:ℕ) ≠ (comm3 p).refined_order - 1 := by omega
    rw [adjErrorInd3D, foldl_range2_cube, sum_pair_cube _ hne]
    simp [mul_one, mul_zero, zero_mul, add_zero, zero_add]
  · simp only [adjTotalError3D, foldl_add_range, zero_add]
  · simp only [adjTotalCorr3D, foldl_add_range, zero_add]

/-- Concrete quad adjoint context for the C7 witness. -/
def wAdj2 : AdjCtx2D where
  refined_order := 2
  nelems := 1
  refineNodes := fun _ s => s
  dep := fun _ _ => 1

/-- Concrete oct adjoint context for the C7 witness. -/
def wAdj3 : AdjCtx3D where
  refined_order := 2
  nelems := 1
  refineNodes := fun _ s => s
  dep := fun _ _ => 1

/-- Witness for C7 at the concrete contexts (one process, one element,
refined order 2). -/
theorem C7_witness :
    adjErrorInd2D 1 (fun _ => wAdj2) 0 0
        = 0.25*|∑ j ∈ ({0, wAdj2.refined_order - 1} : Finset ℕ),
            ∑ i ∈ ({0, wAdj2.refined_order - 1} : Finset ℕ),
              nodalError2D 1 (fun _ => wAdj2)
                (wAdj2.refineNodes 0 (i + j*wAdj2.refined_order))|
    ∧ adjErrorInd3D 1 (fun _ => wAdj3) 0 0
        = 0.125*|∑ k ∈ ({0, wAdj3.refined_order - 1} : Finset ℕ),
            ∑ j ∈ ({0, wAdj3.refined_order - 1} : Finset ℕ),
            ∑ i ∈ ({0, wAdj3.refined_order - 1} : Finset ℕ),
              nodalError3D 1 (fun _ => wAdj3) (wAdj3.refineNodes 0
                (i + j*wAdj3.refined_order
                  + k*wAdj3.refined_order*wAdj3.refined_order))| :=
  ⟨(C7_adjoint_error_est 1 (fun _ => wAdj2) 1 (fun _ => wAdj3)).1 0 0
      (by norm_num [wAdj2]),
   (C7_adjoint_error_est 1 (fun _ => wAdj2) 1 (fun _ => wAdj3)).2.2.2.1 0 0
      (by norm_num [wAdj3])⟩

/-! ## KS stress constraint (source `TMRStressConstraint::evalConstraint`
lines 3627-3820 and `TMRStressConstraint::evalStrain` lines 4221-4345;
claims C1, C8)

The constructor builds `interp_forest` by elevating the mesh order to
`order+1`; `getGaussPtsWts(order+1, ...)` returns the `(order+1)`-point Gauss
rule (external FElibrary contract), so the quadrature loops run over
`order+1` points per axis. -/

structure KSCtx where
  order : ℕ
  vars_per_node : ℕ
  nelems : ℕ
  /-- forest knots -/
  knots : ℕ → ℝ
  /-- `forest->evalInterp` derivatives -/
  cNa : ℝ → ℝ → ℝ → ℕ → ℝ
  cNb : ℝ → ℝ → ℝ → ℕ → ℝ
  cNc : ℝ → ℝ → ℝ → ℕ → ℝ
  /-- `interp_forest->evalInterp` derivatives -/
  rNa : ℝ → ℝ → ℝ → ℕ → ℝ
  rNb : ℝ → ℝ → ℝ → ℕ → ℝ
  rNc : ℝ → ℝ → ℝ → ℕ → ℝ
  jac3d : (ℕ → ℝ) → (ℕ → ℝ) × ℝ
  solver : (ℕ → ℝ) → (ℕ → ℝ) → (ℕ → ℝ)
  /-- the `(order+1)`-point Gauss rule -/
  gaussPts : ℕ → ℝ
  gaussWts : ℕ → ℝ
  /-- `uvec->getValues` per element -/
  vars : ℕ → ℕ → ℝ
  /-- `uderiv->getValues` per element -/
  varderiv : ℕ → ℕ → ℝ
  /-- interp-forest node locations per element -/
  XptsI : ℕ → ℕ → ℝ
  /-- `con->failure(pt, e, &fval)` -/
  failure : ℝ → ℝ → ℝ → (ℕ → ℝ) → ℝ

/-- The reconstruction collaborators the constraint passes to
`computeElemRecon3D(vars_per_node, forest, interp_forest, ...)`: the refined
forest is `interp_forest` of order `order+1`. -/
def KSCtx.recon (c : KSCtx) : Recon3DCtx where
  order := c.order
  refined_order := c.order + 1
  vars_per_node := c.vars_per_node
  knots := c.knots
  cNa := c.cNa
  cNb := c.cNb
  cNc := c.cNc
  rNa := c.rNa
  rNb := c.rNb
  rNc := c.rNc
  jac3d := c.jac3d
  solver := c.solver

/-- The enrichment coefficients of element `i`, recomputed from the same
`vars`/`varderiv` read-backs in both quadrature phases. -/
def elemUbar (c : KSCtx) (i : ℕ) : ℕ → ℝ :=
  computeElemRecon3D c.recon (c.XptsI i) (c.vars i) (c.varderiv i)

/-- `Xd` of `evalStrain`: accumulated with the `interp_forest` basis over
`(order+1)³` nodes (source lines 4266-4283). -/
def ksXd (c : KSCtx) (i : ℕ) (a b p : ℝ) : ℕ → ℝ := fun idx =>
  match idx with
  | 0 => ∑ t ∈ Finset.range ((c.order+1)*(c.order+1)*(c.order+1)),
      c.rNa a b p t * c.XptsI i (3*t)
  | 1 => ∑ t ∈ Finset.range ((c.order+1)*(c.order+1)*(c.order+1)),
      c.rNb a b p t * c.XptsI i (3*t)
  | 2 => ∑ t ∈ Finset.range ((c.order+1)*(c.order+1)*(c.order+1)),
      c.rNc a b p t * c.XptsI i (3*t)
  | 3 => ∑ t ∈ Finset.range ((c.order+1)*(c.order+1)*(c.order+1)),
      c.rNa a b p t * c.XptsI i (3*t+1)
  | 4 => ∑ t ∈ Finset.range ((c.order+1)*(c.order+1)*(c.order+1)),
      c.rNb a b p t * c.XptsI i (3*t+1)
  | 5 => ∑ t ∈ Finset.range ((c.order+1)*(c.order+1)*(c.order+1)),
      c.rNc a b p t * c.XptsI i (3*t+1)
  | 6 => ∑ t ∈ Finset.range ((c.order+1)*(c.order+1)*(c.order+1)),
      c.rNa a b p t * c.XptsI i (3*t+2)
  | 7 => ∑ t ∈ Finset.range ((c.order+1)*(c.order+1)*(c.order+1)),
      c.rNb a b p t * c.XptsI i (3*t+2)
  | 8 => ∑ t ∈ Finset.range ((c.order+1)*(c.order+1)*(c.order+1)),
      c.rNc a b p t * c.XptsI i (3*t+2)
  | _ => 0

/-- The Jacobian `J` of `evalStrain` at the parametric point. -/
def ksJ (c : KSCtx) (i : ℕ) (a b p : ℝ) : ℕ → ℝ := (c.jac3d (ksXd c i a b p)).1

/-- `detJ` returned by `evalStrain`. -/
def ksDetJ (c : KSCtx) (i : ℕ) (a b p : ℝ) : ℝ := (c.jac3d (ksXd c i a b p)).2

/-- `Ud[3m+j]` of `evalStrain`: the coarse-basis displacement gradient of
variable `m` (stride 3 in `vars`), plus the enrichment contribution
`ubar[3t+m]·dNr_j[t]` (source lines 4246-4319). -/
def ksUd (c : KSCtx) (i : ℕ) (a b p : ℝ) (m j : ℕ) : ℝ :=
  (∑ t ∈ Finset.range (c.order*c.order*c.order),
    (if j = 0 then c.cNa a b p t else if j = 1 then c.cNb a b p t else c.cNc a b p t)
      * c.vars i (3*t + m))
  + ∑ t ∈ Finset.range (getNum3dEnrich c.order),
      elemUbar c i (3*t + m) *
        (if j = 0 then enrich3D_Nar c.order a b p t
         else if j = 1 then enrich3D_Nbr c.order a b p t
         else enrich3D_Ncr c.order a b p t)

/-- `Ux[3m+r]` of `evalStrain`: `Σ_j Ud[3m+j]·J[3j+r]`. -/
def ksUx (c : KSCtx) (i : ℕ) (a b p : ℝ) (m r : ℕ) : ℝ :=
  ksUd c i a b p m 0 * ksJ c i a b p r
  + ksUd c i a b p m 1 * ksJ c i a b p (3+r)
  + ksUd c i a b p m 2 * ksJ c i a b p (6+r)

/-- The strain `e[0..5]` of `evalStrain` (source lines 4336-4342). -/
def ksStrainE (c : KSCtx) (i : ℕ) (a b p : ℝ) : ℕ → ℝ := fun s =>
  match s with
  | 0 => ksUx c i a b p 0 0
  | 1 => ksUx c i a b p 1 1
  | 2 => ksUx c i a b p 2 2
  | 3 => ksUx c i a b p 1 2 + ksUx c i a b p 2 1
  | 4 => ksUx c i a b p 0 2 + ksUx c i a b p 2 0
  | 5 => ksUx c i a b p 0 1 + ksUx c i a b p 1 0
  | _ => 0

/-- The failure value of phase A at quadrature point `(ii,jj,kk)` of element
`i`: `con->failure(pt, evalStrain(pt, Xpts, vars, ubar))`. -/
def ksFvalA (c : KSCtx) (i ii jj kk : ℕ) : ℝ :=
  c.failure (c.gaussPts ii) (c.gaussPts jj) (c.gaussPts kk)
    (ksStrainE c i (c.gaussPts ii) (c.gaussPts jj) (c.gaussPts kk))

/-- The failure value recomputed by phase B: the same call chain on the same
read-backs (the source duplicates the loop body). -/
def ksFvalB (c : KSCtx) (i ii jj kk : ℕ) : ℝ :=
  c.failure (c.gaussPts ii) (c.gaussPts jj) (c.gaussPts kk)
    (ksStrainE c i (c.gaussPts ii) (c.gaussPts jj) (c.gaussPts kk))

/-- `detJ` as evaluated by phase B at the quadrature point. -/
def ksDetJB (c : KSCtx) (i ii jj kk : ℕ) : ℝ :=
  ksDetJ c i (c.gaussPts ii) (c.gaussPts jj) (c.gaussPts kk)

/-- Both phases produce the same failure value: the loop bodies are
identical. -/
theorem ksFvalB_eq_A (c : KSCtx) (i ii jj kk : ℕ) :
    ksFvalB c i ii jj kk = ksFvalA c i ii jj kk := rfl

/-- The inner three quadrature loops of phase A (`kk` outer, `jj`, `ii`
inner), tracking the running maximum through `if (fval > acc)`. -/
def mfold3 (nq : ℕ) (f : ℕ → ℕ → ℕ → ℝ) (a : ℝ) : ℝ :=
  (List.range nq).foldl (fun acc kk =>
    (List.range nq).foldl (fun acc jj =>
      (List.range nq).foldl (fun acc ii =>
        if f kk jj ii > acc then f kk jj ii else acc) acc) acc) a

/-- The inner three quadrature loops of phase B, accumulating a sum. -/
def sfold3 (nq : ℕ) (g : ℕ → ℕ → ℕ → ℝ) (a : ℝ) : ℝ :=
  (List.range nq).foldl (fun acc kk =>
    (List.range nq).foldl (fun acc jj =>
      (List.range nq).foldl (fun acc ii => acc + g kk jj ii) acc) acc) a

theorem sfold3_eq (nq : ℕ) (g : ℕ → ℕ → ℕ → ℝ) (a : ℝ) :
    sfold3 nq g a
      = a + ∑ kk ∈ Finset.range nq, ∑ jj ∈ Finset.range nq,
          ∑ ii ∈ Finset.range nq, g kk jj ii := by
  simp only [sfold3, foldl_add_range]

theorem mfold3_ge (nq : ℕ) (f : ℕ → ℕ → ℕ → ℝ) (a : ℝ) : a ≤ mfold3 nq f a := by
  apply foldl_step_ge
  intro a' kk
  apply foldl_step_ge
  intro a'' jj
  apply foldl_step_ge
  intro a3 ii
  rw [ite_gt_eq_max]
  exact le_max_left _ _

theorem mfold3_ub (nq : ℕ) (f : ℕ → ℕ → ℕ → ℝ) {kk jj ii : ℕ}
    (hkk : kk < nq) (hjj : jj < nq) (hii : ii < nq) (a : ℝ) :
    f kk jj ii ≤ mfold3 nq f a := by
  refine foldl_step_ub _ (fun kk => {v | ∃ jj' < nq, ∃ ii' < nq, v = f kk jj' ii'})
    ?_ ?_ (List.range nq) a kk (List.mem_range.mpr hkk) _ ⟨jj, hjj, ii, hii, rfl⟩
  · intro a' kk'
    apply foldl_step_ge
    intro a'' jj'
    apply foldl_step_ge
    intro a3 ii'
    rw [ite_gt_eq_max]
    exact le_max_left _ _
  · rintro a' kk' v ⟨jj', hjj', ii', hii', rfl⟩
    refine foldl_step_ub _ (fun jj' => {v | ∃ ii' < nq, v = f kk' jj' ii'})
      ?_ ?_ (List.range nq) a' jj' (List.mem_range.mpr hjj') _ ⟨ii', hii', rfl⟩
    · intro a'' jj''
      apply foldl_step_ge
      intro a3 ii''
      rw [ite_gt_eq_max]
      exact le_max_left _ _
    · rintro a'' jj'' v ⟨ii'', hii'', rfl⟩
      refine foldl_step_ub _ (fun ii'' => {v | v = f kk' jj'' ii''})
        ?_ ?_ (List.range nq) a'' ii'' (List.mem_range.mpr hii'') _ rfl
      · intro a3 ii3
        rw [ite_gt_eq_max]
        exact le_max_left _ _
      · rintro a3 ii3 v rfl
        rw [ite_gt_eq_max]
        exact le_max_right _ _

theorem mfold3_cases (nq : ℕ) (f : ℕ → ℕ → ℕ → ℝ) (a : ℝ) :
    mfold3 nq f a = a ∨ ∃ kk < nq, ∃ jj < nq, ∃ ii < nq, mfold3 nq f a = f kk jj ii := by
  have hin : ∀ (kk' jj' : ℕ) (b : ℝ),
      (List.range nq).foldl
          (fun acc ii => if f kk' jj' ii > acc then f kk' jj' ii else acc) b = b
      ∨ ∃ ii < nq,
        (List.range nq).foldl
          (fun acc ii => if f kk' jj' ii > acc then f kk' jj' ii else acc) b
          = f kk' jj' ii := by
    intro kk' jj' b
    have h := foldl_step_cases
      (fun acc ii => if f kk' jj' ii > acc then f kk' jj' ii else acc)
      (fun ii => {v | v = f kk' jj' ii})
      (fun a3 ii3 => by
        by_cases hc : f kk' jj' ii3 > a3
        · exact Or.inr (by simp only [if_pos hc]; rfl)
        · exact Or.inl (if_neg hc))
      (List.range nq) b
    rcases h with h | ⟨ii3, hii3, hmem⟩
    · exact Or.inl h
    · exact Or.inr ⟨ii3, List.mem_range.mp hii3, hmem⟩
  have hmid : ∀ (kk' : ℕ) (b : ℝ),
      (List.range nq).foldl (fun acc jj => (List.range nq).foldl
          (fun acc ii => if f kk' jj ii > acc then f kk' jj ii else acc) acc) b = b
      ∨ ∃ jj < nq, ∃ ii < nq,
        (List.range nq).foldl (fun acc jj => (List.range nq).foldl
          (fun acc ii => if f kk' jj ii > acc then f kk' jj ii else acc) acc) b
          = f kk' jj ii := by
    intro kk' b
    have h := foldl_step_cases
      (fun acc jj => (List.range nq).foldl
        (fun acc ii => if f kk' jj ii > acc then f kk' jj ii else acc) acc)
      (fun jj => {v | ∃ ii < nq, v = f kk' jj ii})
      (fun a2 jj2 => by
        rcases hin kk' jj2 a2 with h | ⟨ii2, hii2, hmem⟩
        · exact Or.inl h
        · exact Or.inr ⟨ii2, hii2, hmem⟩)
      (List.range nq) b
    rcases h with h | ⟨jj2, hjj2, ⟨ii2, hii2, hmem⟩⟩
    · exact Or.inl h
    · exact Or.inr ⟨jj2, List.mem_range.mp hjj2, ii2, hii2, hmem⟩
  have h := foldl_step_cases
    (fun acc kk => (List.range nq).foldl (fun acc jj => (List.range nq).foldl
      (fun acc ii => if f kk jj ii > acc then f kk jj ii else acc) acc) acc)
    (fun kk => {v | ∃ jj < nq, ∃ ii < nq, v = f kk jj ii})
    (fun a1 kk1 => by
      rcases hmid kk1 a1 with h | ⟨jj1, hjj1, ii1, hii1, hmem⟩
      · exact Or.inl h
      · exact Or.inr ⟨jj1, hjj1, ii1, hii1, hmem⟩)
    (List.range nq) a
  rcases h with h | ⟨kk1, hkk1, ⟨jj1, hjj1, ii1, hii1, hmem⟩⟩
  · exact Or.inl h
  · exact Or.inr ⟨kk1, List.mem_range.mp hkk1, jj1, hjj1, ii1, hii1, hmem⟩

/-- Phase A of `evalConstraint`: the per-process element loop tracking
`ks_max_fail` from its initialization `-1e20` (source lines 3653-3736). -/
def ksMaxLocal (c : KSCtx) : ℝ :=
  (List.range c.nelems).foldl (fun acc i =>
    mfold3 (c.order+1) (fun kk jj ii => ksFvalA c i ii jj kk) acc) (-1e20)

/-- Phase B of `evalConstraint`: the per-process element loop accumulating
`ks_fail_sum += detJ·w_ii·w_jj·w_kk·exp(k·(fval - M))` from `0`
(source lines 3745-3806). -/
def ksSumLocal (c : KSCtx) (M kw : ℝ) : ℝ :=
  (List.range c.nelems).foldl (fun acc i =>
    sfold3 (c.order+1) (fun kk jj ii =>
      ksDetJB c i ii jj kk * c.gaussWts ii * c.gaussWts jj * c.gaussWts kk
        * Real.exp (kw * (ksFvalB c i ii jj kk - M))) acc) 0

/-- `MPI_Allreduce(MPI_MAX)` of the per-process maxima: `ks_max_fail` after
the reduction (source line 3739). -/
def ksMaxFail (np : ℕ) (comm : ℕ → KSCtx) : ℝ :=
  (List.range np).foldl (fun acc p => max acc (ksMaxLocal (comm p))) (-1e20)

/-- `MPI_Allreduce(MPI_SUM)` of the per-process fail sums: `ks_fail_sum`
after the reduction (source line 3808). -/
def ksFailSum (np : ℕ) (comm : ℕ → KSCtx) (kw : ℝ) : ℝ :=
  (List.range np).foldl (fun acc p =>
    acc + ksSumLocal (comm p) (ksMaxFail np comm) kw) 0

/-- The value `evalConstraint` returns:
`ks_max_fail + log(ks_fail_sum)/ks_weight` (source line 3810). -/
def evalConstraint (np : ℕ) (comm : ℕ → KSCtx) (kw : ℝ) : ℝ :=
  ksMaxFail np comm + Real.log (ksFailSum np comm kw) / kw

/-- The failure values visited by the quadrature sweep of process `p`. -/
def ksElemVals (c : KSCtx) : Set ℝ :=
  {v | ∃ i < c.nelems, ∃ kk < c.order+1, ∃ jj < c.order+1, ∃ ii < c.order+1,
    v = ksFvalA c i ii jj kk}

/-- The failure values visited by the whole sweep, across all processes. -/
def ksSweepVals (np : ℕ) (comm : ℕ → KSCtx) : Set ℝ :=
  {v | ∃ p < np, v ∈ ksElemVals (comm p)}

theorem ksMaxLocal_ge (c : KSCtx) : -1e20 ≤ ksMaxLocal c :=
  foldl_step_ge _ (fun _ _ => mfold3_ge _ _ _) _ _

theorem ksMaxLocal_ub (c : KSCtx) : ∀ v ∈ ksElemVals c, v ≤ ksMaxLocal c := by
  rintro v ⟨i, hi, kk, hkk, jj, hjj, ii, hii, rfl⟩
  refine foldl_step_ub _ (fun i => ksElemVals c ∩
      {v | ∃ kk < c.order+1, ∃ jj < c.order+1, ∃ ii < c.order+1,
        v = ksFvalA c i ii jj kk})
    (fun _ _ => mfold3_ge _ _ _) ?_ (List.range c.nelems) (-1e20) i
    (List.mem_range.mpr hi) _
    ⟨⟨i, hi, kk, hkk, jj, hjj, ii, hii, rfl⟩, kk, hkk, jj, hjj, ii, hii, rfl⟩
  rintro a i' v ⟨-, kk', hkk', jj', hjj', ii', hii', rfl⟩
  exact mfold3_ub (c.order+1) (fun kk jj ii => ksFvalA c i' ii jj kk)
    hkk' hjj' hii' a

theorem ksMaxLocal_cases (c : KSCtx) :
    ksMaxLocal c = -1e20 ∨ ksMaxLocal c ∈ ksElemVals c := by
  have h := foldl_step_cases
    (fun acc i => mfold3 (c.order+1) (fun kk jj ii => ksFvalA c i ii jj kk) acc)
    (fun i => {v | ∃ kk < c.order+1, ∃ jj < c.order+1, ∃ ii < c.order+1,
      v = ksFvalA c i ii jj kk})
    (fun a i => mfold3_cases (c.order+1) _ a)
    (List.range c.nelems) (-1e20)
  rcases h with h | ⟨i, hi, kk, hkk, jj, hjj, ii, hii, hv⟩
  · exact Or.inl h
  · exact Or.inr ⟨i, List.mem_range.mp hi, kk, hkk, jj, hjj, ii, hii, hv⟩

theorem ksMaxFail_ub (np : ℕ) (comm : ℕ → KSCtx) :
    ∀ v ∈ ksSweepVals np comm, v ≤ ksMaxFail np comm := by
  rintro v ⟨p, hp, hv⟩
  have hle : v ≤ ksMaxLocal (comm p) := ksMaxLocal_ub _ _ hv
  refine le_trans hle ?_
  refine foldl_step_ub _ (fun p => {v | v = ksMaxLocal (comm p)})
    (fun a p => le_max_left _ _) ?_ (List.range np) (-1e20) p
    (List.mem_range.mpr hp) _ rfl
  rintro a p' v rfl
  exact le_max_right _ _

theorem ksMaxFail_cases (np : ℕ) (comm : ℕ → KSCtx) :
    ksMaxFail np comm = -1e20
    ∨ ∃ p < np, ksMaxFail np comm = ksMaxLocal (comm p) := by
  have h := foldl_step_cases
    (fun acc p => max acc (ksMaxLocal (comm p)))
    (fun p => {v | v = ksMaxLocal (comm p)})
    (fun a p => by
      rcases max_choice a (ksMaxLocal (comm p)) with h | h
      · exact Or.inl h
      · exact Or.inr h)
    (List.range np) (-1e20)
  rcases h with h | ⟨p, hp, hv⟩
  · exact Or.inl h
  · exact Or.inr ⟨p, List.mem_range.mp hp, hv⟩

theorem ksMaxFail_mem (np : ℕ) (comm : ℕ → KSCtx)
    (hex : ∃ v ∈ ksSweepVals np comm, -1e20 < v) :
    ksMaxFail np comm ∈ ksSweepVals np comm := by
  obtain ⟨v, hv, hgt⟩ := hex
  have hge : v ≤ ksMaxFail np comm := ksMaxFail_ub np comm v hv
  rcases ksMaxFail_cases np comm with h | ⟨p, hp, hloc⟩
  · exact absurd (h ▸ hge) (not_le.mpr hgt)
  · rcases ksMaxLocal_cases (comm p) with h0 | hmem
    · rw [hloc, h0] at hge
      exact absurd hge (not_le.mpr hgt)
    · exact ⟨p, hp, hloc ▸ hmem⟩

theorem ksSumLocal_eq (c : KSCtx) (M kw : ℝ) :
    ksSumLocal c M kw = ∑ i ∈ Finset.range c.nelems,
      ∑ kk ∈ Finset.range (c.order+1), ∑ jj ∈ Finset.range (c.order+1),
      ∑ ii ∈ Finset.range (c.order+1),
        ksDetJB c i ii jj kk * c.gaussWts ii * c.gaussWts jj * c.gaussWts kk
          * Real.exp (kw * (ksFvalB c i ii jj kk - M)) := by
  unfold ksSumLocal
  simp only [sfold3_eq]
  rw [foldl_add_range, zero_add]

theorem ksFailSum_eq (np : ℕ) (comm : ℕ → KSCtx) (kw : ℝ) :
    ksFailSum np comm kw = ∑ p ∈ Finset.range np,
      ∑ i ∈ Finset.range (comm p).nelems,
      ∑ kk ∈ Finset.range ((comm p).order+1),
      ∑ jj ∈ Finset.range ((comm p).order+1),
      ∑ ii ∈ Finset.range ((comm p).order+1),
        ksDetJB (comm p) i ii jj kk * (comm p).gaussWts ii
          * (comm p).gaussWts jj * (comm p).gaussWts kk
          * Real.exp (kw * (ksFvalB (comm p) i ii jj kk - ksMaxFail np comm)) := by
  unfold ksFailSum
  rw [foldl_add_range, zero_add]
  exact Finset.sum_congr rfl fun p _ => ksSumLocal_eq _ _ _

/-- **C1.** `evalConstraint` returns `ks_max_fail + log(ks_fail_sum)/k`:
`ks_max_fail` is the greatest failure value over the whole sweep (all
processes, all elements, all `(order+1)³` tensor-product Gauss points,
provided the sweep sees some value above the `-1e20` initializer), and
`ks_fail_sum` is the sum over the same sweep of
`detJ·w_ii·w_jj·w_kk·exp(k·(f - ks_max_fail))`; the second phase recomputes
the same failure values from the same read-backs and reconstructed `ubar`. -/
theorem C1_evalConstraint_ks (np : ℕ) (comm : ℕ → KSCtx) (kw : ℝ)
    (hex : ∃ v ∈ ksSweepVals np comm, -1e20 < v) :
    IsGreatest (ksSweepVals np comm) (ksMaxFail np comm)
    ∧ evalConstraint np comm kw
        = ksMaxFail np comm
          + Real.log (∑ p ∈ Finset.range np,
              ∑ i ∈ Finset.range (comm p).nelems,
              ∑ kk ∈ Finset.range ((comm p).order+1),
              ∑ jj ∈ Finset.range ((comm p).order+1),
              ∑ ii ∈ Finset.range ((comm p).order+1),
                ksDetJB (comm p) i ii jj kk * (comm p).gaussWts ii
                  * (comm p).gaussWts jj * (comm p).gaussWts kk
                  * Real.exp (kw * (ksFvalA (comm p) i ii jj kk
                      - ksMaxFail np comm))) / kw
    ∧ ∀ p i ii jj kk, ksFvalB (comm p) i ii jj kk = ksFvalA (comm p) i ii jj kk := by
  refine ⟨⟨ksMaxFail_mem np comm hex, ksMaxFail_ub np comm⟩, ?_,
    fun _ _ _ _ _ => rfl⟩
  unfold evalConstraint
  rw [ksFailSum_eq]
  rfl

/-- A one-process, one-element, order-0 context for exercising the KS sweep. -/
def wKS : KSCtx where
  order := 0
  vars_per_node := 1
  nelems := 1
  knots := fun _ => 0
  cNa := fun _ _ _ _ => 0
  cNb := fun _ _ _ _ => 0
  cNc := fun _ _ _ _ => 0
  rNa := fun _ _ _ _ => 0
  rNb := fun _ _ _ _ => 0
  rNc := fun _ _ _ _ => 0
  jac3d := fun _ => (fun _ => 0, 1)
  solver := fun _ _ => fun _ => 0
  gaussPts := fun _ => 0
  gaussWts := fun _ => 1
  vars := fun _ _ => 0
  varderiv := fun _ _ => 0
  XptsI := fun _ _ => 0
  failure := fun _ _ _ _ => 0

theorem C1_witness :
    (∃ v ∈ ksSweepVals 1 (fun _ => wKS), -1e20 < v)
    ∧ (IsGreatest (ksSweepVals 1 (fun _ => wKS)) (ksMaxFail 1 (fun _ => wKS))
    ∧ evalConstraint 1 (fun _ => wKS) 1
        = ksMaxFail 1 (fun _ => wKS)
          + Real.log (∑ p ∈ Finset.range 1,
              ∑ i ∈ Finset.range wKS.nelems,
              ∑ kk ∈ Finset.range (wKS.order+1),
              ∑ jj ∈ Finset.range (wKS.order+1),
              ∑ ii ∈ Finset.range (wKS.order+1),
                ksDetJB wKS i ii jj kk * wKS.gaussWts ii
                  * wKS.gaussWts jj * wKS.gaussWts kk
                  * Real.exp (1 * (ksFvalA wKS i ii jj kk
                      - ksMaxFail 1 (fun _ => wKS)))) / 1
    ∧ ∀ p i ii jj kk, ksFvalB ((fun _ : ℕ => wKS) p) i ii jj kk
        = ksFvalA ((fun _ : ℕ => wKS) p) i ii jj kk) :=
  have hyp : ∃ v ∈ ksSweepVals 1 (fun _ => wKS), -1e20 < v :=
    ⟨ksFvalA wKS 0 0 0 0,
      ⟨0, Nat.zero_lt_one, 0, Nat.zero_lt_one, 0, Nat.zero_lt_one,
        0, Nat.zero_lt_one, 0, Nat.zero_lt_one, rfl⟩,
      by norm_num [ksFvalA, wKS]⟩
  ⟨hyp, C1_evalConstraint_ks 1 (fun _ => wKS) 1 hyp⟩

/-- Modelled from the spec: the fail-sum sweep as the error-handling section
describes it, contributing `detJ·w_ii·w_jj·w_kk·exp(k·(f - M))` only at
quadrature points with `detJ > 0` and skipping (zero contribution) every
point with `detJ ≤ 0`. -/
def ksSumLocalSpec (c : KSCtx) (M kw : ℝ) : ℝ :=
  ∑ i ∈ Finset.range c.nelems,
    ∑ kk ∈ Finset.range (c.order+1), ∑ jj ∈ Finset.range (c.order+1),
    ∑ ii ∈ Finset.range (c.order+1),
      if 0 < ksDetJB c i ii jj kk then
        ksDetJB c i ii jj kk * c.gaussWts ii * c.gaussWts jj * c.gaussWts kk
          * Real.exp (kw * (ksFvalB c i ii jj kk - M))
      else 0

/-- A context whose (opaque, externally supplied) Jacobian factorization
reports `detJ = -1` at every point: a degenerate element. -/
def c8Ctx : KSCtx where
  order := 0
  vars_per_node := 1
  nelems := 1
  knots := fun _ => 0
  cNa := fun _ _ _ _ => 0
  cNb := fun _ _ _ _ => 0
  cNc := fun _ _ _ _ => 0
  rNa := fun _ _ _ _ => 0
  rNb := fun _ _ _ _ => 0
  rNc := fun _ _ _ _ => 0
  jac3d := fun _ => (fun _ => 0, -1)
  solver := fun _ _ => fun _ => 0
  gaussPts := fun _ => 0
  gaussWts := fun _ => 1
  vars := fun _ _ => 0
  varderiv := fun _ _ => 0
  XptsI := fun _ _ => 0
  failure := fun _ _ _ _ => 0

/-- **C8 (counterexample).** On a degenerate element with `detJ = -1` at its
single quadrature point, the code's fail sum is `-1` while the spec's
skip-on-`detJ ≤ 0` rule says it should be `0`: the sweep does not skip the
contribution (and the loop body contains no logging call at all). -/
theorem C8_counterexample : ksSumLocal c8Ctx 0 1 ≠ ksSumLocalSpec c8Ctx 0 1 := by
  have h1 : ksSumLocal c8Ctx 0 1 = -1 := by
    rw [ksSumLocal_eq]
    norm_num [c8Ctx, ksDetJB, ksDetJ, ksFvalB, Finset.sum_range_one,
      Real.exp_zero]
  have h2 : ksSumLocalSpec c8Ctx 0 1 = 0 := by
    unfold ksSumLocalSpec
    norm_num [c8Ctx, ksDetJB, ksDetJ, Finset.sum_range_one]
  rw [h1, h2]
  norm_num

/-- **C8 (amended).** The KS quadrature sweep adds the term
`detJ·w_ii·w_jj·w_kk·exp(k·(f - M))` at every quadrature point
unconditionally: its fail sum equals the spec's skip-guarded sum plus the
sum of exactly the terms at points with `detJ ≤ 0`, which the spec says
must be skipped (and no condition is logged). -/
theorem C8_detJ_terms_unconditional (c : KSCtx) (M kw : ℝ) :
    ksSumLocal c M kw
      = ksSumLocalSpec c M kw
        + ∑ i ∈ Finset.range c.nelems,
          ∑ kk ∈ Finset.range (c.order+1), ∑ jj ∈ Finset.range (c.order+1),
          ∑ ii ∈ Finset.range (c.order+1),
            if 0 < ksDetJB c i ii jj kk then 0 else
              ksDetJB c i ii jj kk * c.gaussWts ii * c.gaussWts jj
                * c.gaussWts kk
                * Real.exp (kw * (ksFvalB c i ii jj kk - M)) := by
  rw [ksSumLocal_eq]
  unfold ksSumLocalSpec
  simp only [← Finset.sum_add_distrib]
  refine Finset.sum_congr rfl fun i _ => ?_
  refine Finset.sum_congr rfl fun kk _ => ?_
  refine Finset.sum_congr rfl fun jj _ => ?_
  refine Finset.sum_congr rfl fun ii _ => ?_
  by_cases h : 0 < ksDetJB c i ii jj kk
  · simp [h]
  · simp [h]

end

end TMR
